import Mathlib

/-!
Verification of the test-data lifecycle and cleanup subsystem of a
browser-driven end-to-end test suite.  Strings are modelled as `List Char`
at ASCII fidelity (the code only manipulates ASCII test data); JavaScript
regular-expression replacements are modelled as the corresponding list
transformations; the asynchronous database layer is modelled as explicit
state passing over a `Store` carrying the connection-pool state, the
relational data, a schedule of query outcomes, and a trace of the issued
statements; a thrown exception is an `Except.error` result.
-/

/-- Character class of the JavaScript whitespace escape where it can occur in
the suite's ASCII test data (space, tab, line feed, vertical tab, form feed,
carriage return, no-break space). -/
def isJsSpace (c : Char) : Bool :=
  c == ' ' || c == '\t' || c == '\n' || c == '\x0b' || c == '\x0c' ||
  c == '\r' || c == ' '

/-- Character class of the regex `[a-z0-9\s-]` used by `generateSlug`'s first
replacement: the characters that are kept. -/
def isSlugKeep (c : Char) : Bool :=
  ('a' ≤ c && c ≤ 'z') || ('0' ≤ c && c ≤ '9') || isJsSpace c || c == '-'

/-- Worker for `collapseRuns`: `inRun` records whether the previous
character belonged to a run of the class being collapsed, so that only the
first character of each maximal run emits the replacement. -/
def collapseRunsGo (p : Char → Bool) (r : Char) : Bool → List Char → List Char
  | _, [] => []
  | inRun, c :: cs =>
    if p c then (if inRun then [] else [r]) ++ collapseRunsGo p r true cs
    else c :: collapseRunsGo p r false cs

/-- Model of the global regex replacement of one-or-more repetitions of a
character class `p` by the single character `r`: every maximal run of
characters satisfying `p` is replaced by one `r`. -/
def collapseRuns (p : Char → Bool) (r : Char) (l : List Char) : List Char :=
  collapseRunsGo p r false l

/-- Model of `String.prototype.trim()`: strip leading and trailing
JavaScript whitespace. -/
def jsTrim (l : List Char) : List Char :=
  ((l.dropWhile isJsSpace).reverse.dropWhile isJsSpace).reverse

namespace TestDataGenerator

/-- `TestDataGenerator.generateSlug` from `src/utils/test-data-generator.ts`:
lower-case, delete every character outside the class `[a-z0-9\s-]`, replace
each whitespace run by one hyphen, replace each hyphen run by one hyphen,
then `trim()` (whitespace trimming) and `substring(0, 50)`.  `Char.toLower`
is the ASCII lower-casing performed by `toLowerCase` on the suite's data. -/
def generateSlug (text : List Char) : List Char :=
  (jsTrim (collapseRuns (fun c => c == '-') '-'
    (collapseRuns isJsSpace '-'
      ((text.map Char.toLower).filter isSlugKeep)))).take 50

/-- The slug pipeline as the specification words it: identical to
`generateSlug` except that the step before truncation trims leading and
trailing HYPHENS (the code's `trim()` only strips whitespace).  Stated from
the spec for comparison with the source-derived `generateSlug`. -/
def generateSlugSpecClaim (text : List Char) : List Char :=
  ((((collapseRuns (fun c => c == '-') '-'
      (collapseRuns isJsSpace '-'
        ((text.map Char.toLower).filter isSlugKeep))).dropWhile
          (fun c => c == '-')).reverse.dropWhile
            (fun c => c == '-')).reverse).take 50

/-- Configured faker password length (`testConfig.testData.passwordLength`). -/
def passwordLength : Nat := 12

/-- `TestDataGenerator.generatePassword`: the faker-produced random password
(modelled as the parameter, of the configured length) with the literal
suffix `'!1Aa'` appended. -/
def generatePassword (fakerPassword : List Char) : List Char :=
  fakerPassword ++ ['!', '1', 'A', 'a']

/-- Payload returned by `TestDataGenerator.generateUser`. -/
structure UserData where
  firstName : List Char
  lastName : List Char
  email : List Char
  password : List Char
  fullName : List Char
deriving DecidableEq, Repr

/-- `TestDataGenerator.generateUser`: the faker outputs (names, raw email,
raw password) are parameters; the email is lower-cased and the password is
produced by `generatePassword`. -/
def generateUser (firstName lastName fakerEmail fakerPassword : List Char) :
    UserData where
  firstName := firstName
  lastName := lastName
  email := fakerEmail.map Char.toLower
  password := generatePassword fakerPassword
  fullName := firstName ++ [' '] ++ lastName

/-- Payload returned by `TestDataGenerator.generateOrganization`. -/
structure OrganizationData where
  name : List Char
  slug : List Char
deriving DecidableEq, Repr

/-- `TestDataGenerator.generateOrganization`: the faker company name is the
parameter; the slug is derived by `generateSlug`. -/
def generateOrganization (companyName : List Char) : OrganizationData where
  name := companyName
  slug := generateSlug companyName

end TestDataGenerator

/-- A character the claimed slug pattern `^[a-z0-9-]+$` accepts. -/
def isSlugOutChar (c : Char) : Bool :=
  ('a' ≤ c && c ≤ 'z') || ('0' ≤ c && c ≤ '9') || c == '-'

/-- SQL LIKE pattern matching over characters: `%` matches any sequence,
`_` matches any single character, everything else matches literally. -/
def likeMatch : List Char → List Char → Bool
  | [], s => s.isEmpty
  | p :: ps, s =>
    if p == '%' then s.tails.any (fun tl => likeMatch ps tl)
    else
      match s with
      | [] => false
      | c :: tl => (p == '_' || p == c) && likeMatch ps tl

/-- SQL LIKE on strings. -/
def sqlLike (pat s : String) : Bool := likeMatch pat.data s.data

/-- Row of the `user` table (the columns the helpers use). -/
structure UserRow where
  id : String
  email : String
deriving DecidableEq, Repr

/-- Row of the `session` table. -/
structure SessionRow where
  userId : String
deriving DecidableEq, Repr

/-- Row of the `account` table. -/
structure AccountRow where
  userId : String
deriving DecidableEq, Repr

/-- Row of the `member` table. -/
structure MemberRow where
  userId : String
  organizationId : String
deriving DecidableEq, Repr

/-- Row of the `invitation` table. -/
structure InvitationRow where
  inviterId : String
  organizationId : String
deriving DecidableEq, Repr

/-- Row of the `organization` table (the columns the helpers use). -/
structure OrgRow where
  id : String
  slug : String
deriving DecidableEq, Repr

/-- Row of the `organization_role` table. -/
structure OrgRoleRow where
  organizationId : String
deriving DecidableEq, Repr

/-- The relational store's tables, as consumed by the helpers. -/
structure DB where
  users : List UserRow
  sessions : List SessionRow
  accounts : List AccountRow
  members : List MemberRow
  invitations : List InvitationRow
  organizations : List OrgRow
  orgRoles : List OrgRoleRow
deriving DecidableEq, Repr

/-- The parameterized statements issued by `DatabaseHelper`, plus the
`pool.end()` call, recorded in the execution trace. -/
inductive Stmt where
  | selectOne
  | selectUserByEmail (email : String)
  | deleteSessionsByUser (userId : String)
  | deleteAccountsByUser (userId : String)
  | deleteMembersByUser (userId : String)
  | deleteInvitationsByInviter (userId : String)
  | deleteUserById (userId : String)
  | selectOrgBySlug (slug : String)
  | deleteMembersByOrg (orgId : String)
  | deleteInvitationsByOrg (orgId : String)
  | deleteOrgRolesByOrg (orgId : String)
  | deleteOrgById (orgId : String)
  | selectUsersByEmailLike (pat : String)
  | deleteUsersByEmailLike (pat : String)
  | selectOrgsBySlugLike (pat : String)
  | deleteOrgsBySlugLike (pat : String)
  | poolEnd
deriving DecidableEq, Repr

/-- Effect of a successfully executed statement: the returned rows (the id
column for SELECT and for DELETE with RETURNING, nothing otherwise) and the
updated tables. -/
def execStmt : Stmt → DB → List String × DB
  | .selectOne, db => (["1"], db)
  | .selectUserByEmail e, db =>
    (((db.users.filter (fun u => u.email == e)).take 1).map (fun u => u.id), db)
  | .deleteSessionsByUser uid, db =>
    ([], { db with sessions := db.sessions.filter (fun s => !(s.userId == uid)) })
  | .deleteAccountsByUser uid, db =>
    ([], { db with accounts := db.accounts.filter (fun a => !(a.userId == uid)) })
  | .deleteMembersByUser uid, db =>
    ([], { db with members := db.members.filter (fun m => !(m.userId == uid)) })
  | .deleteInvitationsByInviter uid, db =>
    ([], { db with invitations :=
      db.invitations.filter (fun i => !(i.inviterId == uid)) })
  | .deleteUserById uid, db =>
    ((db.users.filter (fun u => u.id == uid)).map (fun u => u.id),
     { db with users := db.users.filter (fun u => !(u.id == uid)) })
  | .selectOrgBySlug s, db =>
    (((db.organizations.filter (fun o => o.slug == s)).take 1).map
      (fun o => o.id), db)
  | .deleteMembersByOrg oid, db =>
    ([], { db with members :=
      db.members.filter (fun m => !(m.organizationId == oid)) })
  | .deleteInvitationsByOrg oid, db =>
    ([], { db with invitations :=
      db.invitations.filter (fun i => !(i.organizationId == oid)) })
  | .deleteOrgRolesByOrg oid, db =>
    ([], { db with orgRoles :=
      db.orgRoles.filter (fun r => !(r.organizationId == oid)) })
  | .deleteOrgById oid, db =>
    ((db.organizations.filter (fun o => o.id == oid)).map (fun o => o.id),
     { db with organizations :=
       db.organizations.filter (fun o => !(o.id == oid)) })
  | .selectUsersByEmailLike pat, db =>
    ((db.users.filter (fun u => sqlLike pat u.email)).map (fun u => u.id), db)
  | .deleteUsersByEmailLike pat, db =>
    ((db.users.filter (fun u => sqlLike pat u.email)).map (fun u => u.id),
     { db with users := db.users.filter (fun u => !(sqlLike pat u.email)) })
  | .selectOrgsBySlugLike pat, db =>
    ((db.organizations.filter (fun o => sqlLike pat o.slug)).map
      (fun o => o.id), db)
  | .deleteOrgsBySlugLike pat, db =>
    ((db.organizations.filter (fun o => sqlLike pat o.slug)).map
      (fun o => o.id),
     { db with organizations :=
       db.organizations.filter (fun o => !(sqlLike pat o.slug)) })
  | .poolEnd, db => ([], db)

/-- The `pg` pool configuration passed by `DatabaseHelper.connect`. -/
structure PoolConfig where
  max : Nat
  idleTimeoutMillis : Nat
  connectionTimeoutMillis : Nat
deriving DecidableEq, Repr

/-- Errors a database operation can surface (a thrown exception).
`typeError` is the JavaScript `TypeError` raised by calling `Logger.debug`,
a method the repository's `Logger` class does not define. -/
inductive DBErr where
  | notConnected
  | queryFailed
  | connectFailed
  | poolEndFailed
  | typeError
deriving DecidableEq, Repr

/-- Execution state: the static pool handle (`null` when disconnected), the
store's tables, the schedule of outcomes of the pending external I/O calls
(`true` = the call throws; an exhausted schedule means success), and the
trace of statements issued to the store. -/
structure Store where
  pool : Option PoolConfig
  db : DB
  failures : List Bool
  trace : List Stmt
deriving DecidableEq, Repr

namespace DatabaseHelper

/-- `DatabaseHelper.query`: throws when the pool is `null`; otherwise issues
the statement (recorded in the trace), which either throws per the outcome
schedule or executes its effect and returns its rows. -/
def query (stmt : Stmt) (st : Store) : Except DBErr (List String) × Store :=
  match st.pool with
  | none => (.error .notConnected, st)
  | some _ =>
    let st1 := { st with trace := st.trace ++ [stmt] }
    let b := st1.failures.headD false
    let st2 := { st1 with failures := st1.failures.tail }
    if b then (.error .queryFailed, st2)
    else
      let r := execStmt stmt st2.db
      (.ok r.fst, { st2 with db := r.snd })

/-- `DatabaseHelper.connect`: when the pool already exists, the branch runs
`Logger.debug('Database already connected')` — but the repository's `Logger`
class defines no `debug` method, so this call throws a `TypeError` before
the `return`, leaving all state unchanged.  Otherwise it creates the pool
(max 10, idle timeout 30000 ms, connect timeout 10000 ms) — this path only
calls `Logger.info` / `Logger.success` / `Logger.error`, which exist —
issues the test statement `SELECT 1`, and on its failure resets the pool to
`null` and rethrows. -/
def connect (st : Store) : Except DBErr Unit × Store :=
  match st.pool with
  | some _ => (.error .typeError, st)
  | none =>
    let st1 := { st with
      pool := some { max := 10, idleTimeoutMillis := 30000,
                     connectionTimeoutMillis := 10000 },
      trace := st.trace ++ [Stmt.selectOne] }
    let b := st1.failures.headD false
    let st2 := { st1 with failures := st1.failures.tail }
    if b then (.error .connectFailed, { st2 with pool := none })
    else (.ok (), st2)

/-- `DatabaseHelper.isConnected`: the pool is not `null`. -/
def isConnected (st : Store) : Bool := st.pool.isSome

/-- `DatabaseHelper.disconnect`: when a pool exists, awaits `pool.end()`
(which may throw, leaving the pool set) and then clears the pool. -/
def disconnect (st : Store) : Except DBErr Unit × Store :=
  match st.pool with
  | none => (.ok (), st)
  | some _ =>
    let st1 := { st with trace := st.trace ++ [Stmt.poolEnd] }
    let b := st1.failures.headD false
    let st2 := { st1 with failures := st1.failures.tail }
    if b then (.error .poolEndFailed, st2)
    else (.ok (), { st2 with pool := none })

/-- `DatabaseHelper.findUserByEmail`: SELECT ... WHERE email = $1 LIMIT 1
inside try/catch; the first row (its id) or `null`, and `null` on any
error. -/
def findUserByEmail (email : String) (st : Store) :
    Except DBErr (Option String) × Store :=
  match query (.selectUserByEmail email) st with
  | (.ok rows, st1) => (.ok rows.head?, st1)
  | (.error _, st1) => (.ok none, st1)

/-- The four dependent-row deletions performed before deleting a user row,
shared verbatim by `deleteUserByEmail`, `deleteUserById` and
`cleanupTestUsers`: session, account, member, invitation (by inviter). -/
def deleteUserDeps (uid : String) (st : Store) : Except DBErr Unit × Store :=
  match query (.deleteSessionsByUser uid) st with
  | (.error e, st1) => (.error e, st1)
  | (.ok _, st1) =>
  match query (.deleteAccountsByUser uid) st1 with
  | (.error e, st2) => (.error e, st2)
  | (.ok _, st2) =>
  match query (.deleteMembersByUser uid) st2 with
  | (.error e, st3) => (.error e, st3)
  | (.ok _, st3) =>
  match query (.deleteInvitationsByInviter uid) st3 with
  | (.error e, st4) => (.error e, st4)
  | (.ok _, st4) => (.ok (), st4)

/-- `DatabaseHelper.deleteUserByEmail`: resolve the user, delete dependent
rows, delete the user row RETURNING id; `false` when not found, `true` when
a row was removed, and `false` on any thrown error (the catch block). -/
def deleteUserByEmail (email : String) (st : Store) :
    Except DBErr Bool × Store :=
  match findUserByEmail email st with
  | (.error _, st1) => (.ok false, st1)
  | (.ok none, st1) => (.ok false, st1)
  | (.ok (some uid), st1) =>
    match deleteUserDeps uid st1 with
    | (.error _, st2) => (.ok false, st2)
    | (.ok _, st2) =>
      match query (.deleteUserById uid) st2 with
      | (.error _, st3) => (.ok false, st3)
      | (.ok rows, st3) => (.ok (!rows.isEmpty), st3)

/-- `DatabaseHelper.findOrganizationBySlug`: SELECT ... WHERE slug = $1
LIMIT 1 inside try/catch; the first row (its id) or `null`, and `null` on
any error. -/
def findOrganizationBySlug (slug : String) (st : Store) :
    Except DBErr (Option String) × Store :=
  match query (.selectOrgBySlug slug) st with
  | (.ok rows, st1) => (.ok rows.head?, st1)
  | (.error _, st1) => (.ok none, st1)

/-- The three dependent-row deletions performed before deleting an
organization row, shared verbatim by `deleteOrganizationBySlug`,
`deleteOrganizationById` and `cleanupTestOrganizations`: member,
invitation, organization_role. -/
def deleteOrgDeps (oid : String) (st : Store) : Except DBErr Unit × Store :=
  match query (.deleteMembersByOrg oid) st with
  | (.error e, st1) => (.error e, st1)
  | (.ok _, st1) =>
  match query (.deleteInvitationsByOrg oid) st1 with
  | (.error e, st2) => (.error e, st2)
  | (.ok _, st2) =>
  match query (.deleteOrgRolesByOrg oid) st2 with
  | (.error e, st3) => (.error e, st3)
  | (.ok _, st3) => (.ok (), st3)

/-- `DatabaseHelper.deleteOrganizationBySlug`: resolve the organization,
delete dependent rows, delete the organization row RETURNING id; `false`
when not found, `true` when a row was removed, and `false` on any thrown
error (the catch block). -/
def deleteOrganizationBySlug (slug : String) (st : Store) :
    Except DBErr Bool × Store :=
  match findOrganizationBySlug slug st with
  | (.error _, st1) => (.ok false, st1)
  | (.ok none, st1) => (.ok false, st1)
  | (.ok (some oid), st1) =>
    match deleteOrgDeps oid st1 with
    | (.error _, st2) => (.ok false, st2)
    | (.ok _, st2) =>
      match query (.deleteOrgById oid) st2 with
      | (.error _, st3) => (.ok false, st3)
      | (.ok rows, st3) => (.ok (!rows.isEmpty), st3)

/-- The per-user loop body of `cleanupTestUsers`: dependent-row deletions
for each matched id, aborting on the first thrown error (the loop is inside
the single try block). -/
def usersDepsLoop : List String → Store → Except DBErr Unit × Store
  | [], st => (.ok (), st)
  | uid :: rest, st =>
    match deleteUserDeps uid st with
    | (.error e, st1) => (.error e, st1)
    | (.ok _, st1) => usersDepsLoop rest st1

/-- `DatabaseHelper.cleanupTestUsers`: select ids whose email matches the
LIKE pattern, delete each one's dependent rows, bulk-delete the users
RETURNING id, and return the count; `0` when nothing matches or on any
thrown error (the catch block). -/
def cleanupTestUsers (pat : String) (st : Store) : Except DBErr Nat × Store :=
  match query (.selectUsersByEmailLike pat) st with
  | (.error _, st1) => (.ok 0, st1)
  | (.ok users, st1) =>
    if users.isEmpty then (.ok 0, st1)
    else
      match usersDepsLoop users st1 with
      | (.error _, st2) => (.ok 0, st2)
      | (.ok _, st2) =>
        match query (.deleteUsersByEmailLike pat) st2 with
        | (.error _, st3) => (.ok 0, st3)
        | (.ok rows, st3) => (.ok rows.length, st3)

/-- The per-organization loop body of `cleanupTestOrganizations`. -/
def orgsDepsLoop : List String → Store → Except DBErr Unit × Store
  | [], st => (.ok (), st)
  | oid :: rest, st =>
    match deleteOrgDeps oid st with
    | (.error e, st1) => (.error e, st1)
    | (.ok _, st1) => orgsDepsLoop rest st1

/-- `DatabaseHelper.cleanupTestOrganizations`: select ids whose slug matches
the LIKE pattern, delete each one's dependent rows, bulk-delete the
organizations RETURNING id, and return the count; `0` when nothing matches
or on any thrown error (the catch block). -/
def cleanupTestOrganizations (pat : String) (st : Store) :
    Except DBErr Nat × Store :=
  match query (.selectOrgsBySlugLike pat) st with
  | (.error _, st1) => (.ok 0, st1)
  | (.ok orgs, st1) =>
    if orgs.isEmpty then (.ok 0, st1)
    else
      match orgsDepsLoop orgs st1 with
      | (.error _, st2) => (.ok 0, st2)
      | (.ok _, st2) =>
        match query (.deleteOrgsBySlugLike pat) st2 with
        | (.error _, st3) => (.ok 0, st3)
        | (.ok rows, st3) => (.ok rows.length, st3)

end DatabaseHelper

/-- Process environment flags consumed by the fixtures and hooks. -/
structure ProcEnv where
  databaseUrl : Bool
  ci : Bool
deriving DecidableEq, Repr

/-- The in-memory registry of the `TestCleanup` tracker: the natural keys
registered for cleanup during one test. -/
structure TestCleanup where
  usersToCleanup : List String
  organizationsToCleanup : List String
deriving DecidableEq, Repr

/-- Result of `TestCleanup.getStats`. -/
structure CleanupStats where
  users : Nat
  organizations : Nat
deriving DecidableEq, Repr

namespace TestCleanup

/-- `TestCleanup.getStats`: the pending counts. -/
def getStats (tc : TestCleanup) : CleanupStats :=
  { users := tc.usersToCleanup.length,
    organizations := tc.organizationsToCleanup.length }

/-- The organization loop of `TestCleanup.cleanup`: each iteration awaits
`deleteOrganizationBySlug` inside its own try/catch, so an error never stops
the loop.  (After the deletion the iteration calls the nonexistent
`Logger.debug`; that `TypeError` is thrown after the deletion's state effect
and caught by the same per-item catch, leaving no observable state, so it is
not modelled separately.) -/
def orgsLoop : List String → Store → Store
  | [], st => st
  | slug :: rest, st =>
    orgsLoop rest (DatabaseHelper.deleteOrganizationBySlug slug st).snd

/-- The user loop of `TestCleanup.cleanup`: each iteration awaits
`deleteUserByEmail` inside its own try/catch. -/
def usersLoop : List String → Store → Store
  | [], st => st
  | email :: rest, st =>
    usersLoop rest (DatabaseHelper.deleteUserByEmail email st).snd

/-- `TestCleanup.cleanup` from the test fixtures: with no `DATABASE_URL`
(or CI without one) clear the registry and return; otherwise attempt
`connect()` and on any throw — a failed connection, or the `Logger.debug`
`TypeError` of the already-connected branch — return early, leaving the
registry as it was; otherwise delete every registered organization, then
every registered user, and clear the registry.  The returned `TestCleanup`
is the tracker's state after the call. -/
def cleanup (env : ProcEnv) (tc : TestCleanup) (st : Store) :
    Except DBErr TestCleanup × Store :=
  if !env.databaseUrl || (env.ci && !env.databaseUrl) then
    (.ok { usersToCleanup := [], organizationsToCleanup := [] }, st)
  else
    match DatabaseHelper.connect st with
    | (.error _, st1) => (.ok tc, st1)
    | (.ok _, st1) =>
      let st2 := orgsLoop tc.organizationsToCleanup st1
      let st3 := usersLoop tc.usersToCleanup st2
      (.ok { usersToCleanup := [], organizationsToCleanup := [] }, st3)

end TestCleanup

/-- Configuration values consumed by the global hooks
(`testConfig.database` and `testConfig.testData`). -/
structure HookConfig where
  cleanupOnStart : Bool
  cleanupOnEnd : Bool
  testEmailDomain : String
  testOrgPrefix : String
deriving DecidableEq, Repr

/-- `globalSetup` from `src/global-setup.ts`: connect, optionally sweep
stale users then organizations; the surrounding try/catch logs the error
and RETHROWS it, so a failure propagates out of the setup step. -/
def globalSetup (cfg : HookConfig) (st : Store) : Except DBErr Unit × Store :=
  match DatabaseHelper.connect st with
  | (.error e, st1) => (.error e, st1)
  | (.ok _, st1) =>
    if cfg.cleanupOnStart then
      match DatabaseHelper.cleanupTestUsers
          ("%@" ++ cfg.testEmailDomain) st1 with
      | (.error e, st2) => (.error e, st2)
      | (.ok _, st2) =>
        match DatabaseHelper.cleanupTestOrganizations
            (cfg.testOrgPrefix ++ "%") st2 with
        | (.error e, st3) => (.error e, st3)
        | (.ok _, st3) => (.ok (), st3)
    else (.ok (), st1)

/-- `globalTeardown` from `src/global-teardown.ts`: when `DATABASE_URL` is
set, attempt `connect()` (failure caught and logged), then when
`cleanupOnEnd` holds and the helper is connected run the user sweep and the
organization sweep (each in its own try/catch), then when connected attempt
`disconnect()` (failure caught and logged); the outer try/catch never
rethrows. -/
def globalTeardown (env : ProcEnv) (cfg : HookConfig) (st : Store) :
    Except DBErr Unit × Store :=
  if env.databaseUrl then
    let st1 :=
      match DatabaseHelper.connect st with
      | (.error _, s) => s
      | (.ok _, s) => s
    let st2 :=
      if cfg.cleanupOnEnd && DatabaseHelper.isConnected st1 then
        let sU :=
          match DatabaseHelper.cleanupTestUsers
              ("%@" ++ cfg.testEmailDomain) st1 with
          | (.error _, s) => s
          | (.ok _, s) => s
        match DatabaseHelper.cleanupTestOrganizations
            (cfg.testOrgPrefix ++ "%") sU with
        | (.error _, s) => s
        | (.ok _, s) => s
      else st1
    let st3 :=
      if DatabaseHelper.isConnected st2 then
        match DatabaseHelper.disconnect st2 with
        | (.error _, s) => s
        | (.ok _, s) => s
      else st2
    (.ok (), st3)
  else (.ok (), st)

/-- The full FK-safe statement sequence `deleteOrganizationBySlug` issues
for a slug resolving to `oid`: dependent rows strictly before the
organization row. -/
def orgDeleteSeq (slug oid : String) : List Stmt :=
  [.selectOrgBySlug slug, .deleteMembersByOrg oid,
   .deleteInvitationsByOrg oid, .deleteOrgRolesByOrg oid,
   .deleteOrgById oid]

/-- The full FK-safe statement sequence `deleteUserByEmail` issues for an
email resolving to `uid`: dependent rows strictly before the user row. -/
def userDeleteSeq (email uid : String) : List Stmt :=
  [.selectUserByEmail email, .deleteSessionsByUser uid,
   .deleteAccountsByUser uid, .deleteMembersByUser uid,
   .deleteInvitationsByInviter uid, .deleteUserById uid]

/-- A nonempty trace segment an attempt to delete organization `slug` can
produce: a nonempty prefix of the FK-safe sequence (so it begins with the
lookup and any `deleteOrgById` is preceded by all three dependent-row
deletions). -/
def OrgSeg (slug : String) (seg : List Stmt) : Prop :=
  ∃ oid, seg ≠ [] ∧ seg <+: orgDeleteSeq slug oid

/-- A nonempty trace segment an attempt to delete user `email` can produce:
a nonempty prefix of the FK-safe sequence. -/
def UserSeg (email : String) (seg : List Stmt) : Prop :=
  ∃ uid, seg ≠ [] ∧ seg <+: userDeleteSeq email uid

/-- `OrgPhase slugs T`: trace `T` is the concatenation, in registration
order, of one deletion-attempt segment per registered slug. -/
def OrgPhase : List String → List Stmt → Prop
  | [], T => T = []
  | slug :: rest, T => ∃ seg T2, T = seg ++ T2 ∧ OrgSeg slug seg ∧
      OrgPhase rest T2

/-- `UserPhase emails T`: trace `T` is the concatenation, in registration
order, of one deletion-attempt segment per registered email. -/
def UserPhase : List String → List Stmt → Prop
  | [], T => T = []
  | email :: rest, T => ∃ seg T2, T = seg ++ T2 ∧ UserSeg email seg ∧
      UserPhase rest T2

/-- Empty tables, for concrete instantiations. -/
def DB.empty : DB :=
  { users := [], sessions := [], accounts := [], members := [],
    invitations := [], organizations := [], orgRoles := [] }

/-- A small populated store state (one user with dependent rows, one
organization with dependent rows) used by concrete instantiations. -/
def sampleDB : DB :=
  { users := [{ id := "u1", email := "jo@x.test" }],
    sessions := [{ userId := "u1" }],
    accounts := [{ userId := "u1" }],
    members := [{ userId := "u1", organizationId := "o1" }],
    invitations := [{ inviterId := "u1", organizationId := "o1" }],
    organizations := [{ id := "o1", slug := "acme-co" }],
    orgRoles := [{ organizationId := "o1" }] }

/-- Every character of a collapsed list is either the replacement or a
character of the input not in the collapsed class. -/
theorem mem_collapseRunsGo {p : Char → Bool} {r : Char} :
    ∀ {b : Bool} {l : List Char} {c : Char}, c ∈ collapseRunsGo p r b l →
      c = r ∨ (c ∈ l ∧ p c = false) := by
  intro b l
  induction l generalizing b with
  | nil => intro c h; simp [collapseRunsGo] at h
  | cons a tl ih =>
    intro c h
    simp only [collapseRunsGo] at h
    by_cases hp : p a
    · rw [if_pos hp] at h
      rcases List.mem_append.mp h with h1 | h2
      · left
        cases b with
        | true => simp at h1
        | false => simpa using h1
      · rcases ih h2 with h3 | ⟨h4, h5⟩
        · exact Or.inl h3
        · exact Or.inr ⟨List.mem_cons_of_mem _ h4, h5⟩
    · rw [if_neg hp] at h
      rcases List.mem_cons.mp h with rfl | h2
      · exact Or.inr ⟨List.mem_cons_self _ _, by simpa using hp⟩
      · rcases ih h2 with h3 | ⟨h4, h5⟩
        · exact Or.inl h3
        · exact Or.inr ⟨List.mem_cons_of_mem _ h4, h5⟩

/-- Collapsing runs never empties a nonempty list. -/
theorem collapseRuns_ne_nil {p : Char → Bool} {r : Char} {l : List Char}
    (h : l ≠ []) : collapseRuns p r l ≠ [] := by
  cases l with
  | nil => exact absurd rfl h
  | cons a tl =>
    simp only [collapseRuns, collapseRunsGo]
    by_cases hp : p a
    · simp [hp]
    · simp [hp]

/-- `dropWhile` is the identity on a list with no character of the class. -/
theorem dropWhile_eq_self_of_not {p : Char → Bool} {l : List Char}
    (h : ∀ c ∈ l, p c = false) : l.dropWhile p = l := by
  cases l with
  | nil => rfl
  | cons a tl => simp [List.dropWhile_cons, h a (List.mem_cons_self a tl)]

/-- `jsTrim` is the identity on a list with no whitespace. -/
theorem jsTrim_eq_self {l : List Char}
    (h : ∀ c ∈ l, isJsSpace c = false) : jsTrim l = l := by
  unfold jsTrim
  rw [dropWhile_eq_self_of_not h,
    dropWhile_eq_self_of_not (fun c hc => h c (List.mem_reverse.mp hc))]
  exact List.reverse_reverse l

/-- After the whitespace runs have been replaced by hyphens (and then hyphen
runs collapsed), no whitespace remains, so the subsequent `trim()` of
`generateSlug` is the identity. -/
theorem jsTrim_slug_pipeline (x : List Char) :
    jsTrim (collapseRuns (fun c => c == '-') '-'
        (collapseRuns isJsSpace '-' x)) =
      collapseRuns (fun c => c == '-') '-'
        (collapseRuns isJsSpace '-' x) := by
  apply jsTrim_eq_self
  intro c hc
  simp only [collapseRuns] at hc
  rcases mem_collapseRunsGo hc with rfl | ⟨h1, hne⟩
  · decide
  · rcases mem_collapseRunsGo h1 with rfl | ⟨_, h2⟩
    · simp at hne
    · exact h2

/-- Claim C2 (counterexample): on the input `-abc-` the code's slug differs
from the spec's pipeline, because the code's `trim()` strips whitespace, not
hyphens, so leading and trailing hyphens survive. -/
theorem generateSlug_trim_counterexample :
    TestDataGenerator.generateSlug ['-', 'a', 'b', 'c', '-'] ≠
      TestDataGenerator.generateSlugSpecClaim ['-', 'a', 'b', 'c', '-'] := by
  decide

/-- Claim C2 (amended): for every input, `generateSlug` lower-cases the
string, strips characters outside the class of lower-case letters, digits,
whitespace and hyphen, collapses whitespace runs to a single hyphen,
collapses repeated hyphens, and truncates to at most 50 characters; the
final `trim()` only strips whitespace, none of which remains at that point,
so leading and trailing hyphens are preserved, not trimmed.  The function is
a pure transformation of its input. -/
theorem generateSlug_spec (text : List Char) :
    TestDataGenerator.generateSlug text =
      (collapseRuns (fun c => c == '-') '-'
        (collapseRuns isJsSpace '-'
          ((text.map Char.toLower).filter isSlugKeep))).take 50 := by
  unfold TestDataGenerator.generateSlug
  rw [jsTrim_slug_pipeline]

/-- Claim C6: for every organization name whose lower-casing contains at
least one character kept by the slug filter, the slug derived by
`generateOrganization` is a nonempty string of characters drawn from
lower-case letters, digits and hyphen (so it matches `^[a-z0-9-]+$` and
contains no upper-case letter) and is at most 50 characters long. -/
theorem generateOrganization_slug_wellformed (companyName : List Char)
    (h : companyName.any (fun c => isSlugKeep (Char.toLower c)) = true) :
    (TestDataGenerator.generateOrganization companyName).slug ≠ [] ∧
    (TestDataGenerator.generateOrganization companyName).slug.all
      isSlugOutChar = true ∧
    (TestDataGenerator.generateOrganization companyName).slug.length ≤ 50 := by
  have hslug : (TestDataGenerator.generateOrganization companyName).slug =
      (collapseRuns (fun c => c == '-') '-'
        (collapseRuns isJsSpace '-'
          ((companyName.map Char.toLower).filter isSlugKeep))).take 50 := by
    show TestDataGenerator.generateSlug companyName = _
    unfold TestDataGenerator.generateSlug
    rw [jsTrim_slug_pipeline]
  rw [hslug]
  refine ⟨?_, ?_, ?_⟩
  · rcases List.any_eq_true.mp h with ⟨c0, hc0, hkeep⟩
    have hmem : Char.toLower c0 ∈ (companyName.map Char.toLower).filter
        isSlugKeep :=
      List.mem_filter.mpr ⟨List.mem_map_of_mem Char.toLower hc0, hkeep⟩
    have h1 : (companyName.map Char.toLower).filter isSlugKeep ≠ [] := by
      intro hnil
      rw [hnil] at hmem
      exact List.not_mem_nil _ hmem
    have h2 := collapseRuns_ne_nil (p := isJsSpace) (r := '-') h1
    have h3 := collapseRuns_ne_nil (p := fun c => c == '-') (r := '-') h2
    cases hl : collapseRuns (fun c => c == '-') '-'
        (collapseRuns isJsSpace '-'
          ((companyName.map Char.toLower).filter isSlugKeep)) with
    | nil => exact absurd hl h3
    | cons a tl => simp [List.take_cons]
  · rw [List.all_eq_true]
    intro c hc
    have hc1 := List.take_subset 50 _ hc
    simp only [collapseRuns] at hc1
    rcases mem_collapseRunsGo hc1 with rfl | ⟨h1, hne⟩
    · decide
    · rcases mem_collapseRunsGo h1 with rfl | ⟨h2, hws⟩
      · simp at hne
      · have hkeep := List.of_mem_filter h2
        simp only [isSlugKeep, hws, Bool.or_false] at hkeep
        simp only [isSlugOutChar]
        rcases Bool.or_eq_true_iff.mp hkeep with h | h
        · rcases Bool.or_eq_true_iff.mp h with h | h
          · simp [h]
          · simp [h]
        · simp [hne] at h
  · exact List.length_take_le 50 _

/-- Claim C6 (witness): a concrete faker-style company name. -/
theorem generateOrganization_slug_wellformed_witness :
    (TestDataGenerator.generateOrganization
      ['K', 'o', 's', 's', ' ', '-', ' ', 'R', 'u', 'e', 'c', 'k', 'e',
       'r']).slug ≠ [] ∧
    (TestDataGenerator.generateOrganization
      ['K', 'o', 's', 's', ' ', '-', ' ', 'R', 'u', 'e', 'c', 'k', 'e',
       'r']).slug.all isSlugOutChar = true ∧
    (TestDataGenerator.generateOrganization
      ['K', 'o', 's', 's', ' ', '-', ' ', 'R', 'u', 'e', 'c', 'k', 'e',
       'r']).slug.length ≤ 50 :=
  generateOrganization_slug_wellformed _ (by decide)

/-- Claim C9: every password returned by `generateUser` (via
`generatePassword`) has at least the configured minimum length and contains
a letter, a digit and a symbol (a non-alphanumeric character). -/
theorem generateUser_password_policy
    (firstName lastName fakerEmail fakerPassword : List Char)
    (h : fakerPassword.length = TestDataGenerator.passwordLength) :
    TestDataGenerator.passwordLength ≤
      (TestDataGenerator.generateUser firstName lastName fakerEmail
        fakerPassword).password.length ∧
    (TestDataGenerator.generateUser firstName lastName fakerEmail
      fakerPassword).password.any (fun c => c.isAlpha) = true ∧
    (TestDataGenerator.generateUser firstName lastName fakerEmail
      fakerPassword).password.any (fun c => c.isDigit) = true ∧
    (TestDataGenerator.generateUser firstName lastName fakerEmail
      fakerPassword).password.any (fun c => !c.isAlphanum) = true := by
  refine ⟨?_, ?_, ?_, ?_⟩
  · simp only [TestDataGenerator.generateUser,
      TestDataGenerator.generatePassword, List.length_append, h]
    omega
  · simp [TestDataGenerator.generateUser,
      TestDataGenerator.generatePassword, List.any_append]
  · simp [TestDataGenerator.generateUser,
      TestDataGenerator.generatePassword, List.any_append]
  · simp [TestDataGenerator.generateUser,
      TestDataGenerator.generatePassword, List.any_append]

/-- Claim C9 (witness): a concrete faker password of the configured
length. -/
theorem generateUser_password_policy_witness :
    TestDataGenerator.passwordLength ≤
      (TestDataGenerator.generateUser ['J', 'o'] ['D', 'o', 'e']
        ['j', '@', 'x'] ['q', 'q', 'q', 'q', 'q', 'q', 'q', 'q', 'q',
          'q', 'q', 'q']).password.length ∧
    (TestDataGenerator.generateUser ['J', 'o'] ['D', 'o', 'e']
      ['j', '@', 'x'] ['q', 'q', 'q', 'q', 'q', 'q', 'q', 'q', 'q', 'q',
        'q', 'q']).password.any (fun c => c.isAlpha) = true ∧
    (TestDataGenerator.generateUser ['J', 'o'] ['D', 'o', 'e']
      ['j', '@', 'x'] ['q', 'q', 'q', 'q', 'q', 'q', 'q', 'q', 'q', 'q',
        'q', 'q']).password.any (fun c => c.isDigit) = true ∧
    (TestDataGenerator.generateUser ['J', 'o'] ['D', 'o', 'e']
      ['j', '@', 'x'] ['q', 'q', 'q', 'q', 'q', 'q', 'q', 'q', 'q', 'q',
        'q', 'q']).password.any (fun c => !c.isAlphanum) = true :=
  generateUser_password_policy _ _ _ _ (by decide)

/-- Claim C7 (counterexample): calling `connect()` when the client is
already connected is not a no-op: the branch calls `Logger.debug`, a method
the repository's `Logger` class does not define, so the call throws a
`TypeError` instead of returning (the state, including the existing pool,
is left unchanged). -/
theorem connect_connected_counterexample :
    DatabaseHelper.connect
        (Store.mk
          (some { max := 10, idleTimeoutMillis := 30000,
                  connectionTimeoutMillis := 10000 })
          sampleDB [] []) =
      (.error .typeError,
        Store.mk
          (some { max := 10, idleTimeoutMillis := 30000,
                  connectionTimeoutMillis := 10000 })
          sampleDB [] []) := rfl

/-- Claim C7 (amended): `connect()` is not idempotent — calling it when the
client is already connected throws the `TypeError` arising from the
undefined `Logger.debug`, though it leaves the existing pool and all other
state unchanged; the first successful call opens a connection pool bounded
by at most 10 concurrent connections with an explicit 30000 ms idle timeout
and a 10000 ms connect timeout. -/
theorem connect_throws_when_connected_and_bounded :
    (∀ st p, st.pool = some p →
      DatabaseHelper.connect st = (.error .typeError, st)) ∧
    (∀ st r st1, st.pool = none → DatabaseHelper.connect st = (.ok r, st1) →
      ∃ cfg : PoolConfig, st1.pool = some cfg ∧ cfg.max ≤ 10 ∧
        cfg.idleTimeoutMillis = 30000 ∧
        cfg.connectionTimeoutMillis = 10000) := by
  constructor
  · intro st p hp
    obtain ⟨pool, db, fl, tr⟩ := st
    simp only at hp
    subst hp
    rfl
  · intro st r st1 hp hc
    obtain ⟨pool, db, fl, tr⟩ := st
    simp only at hp
    subst hp
    rcases hb : fl.headD false with _ | _
    · simp only [DatabaseHelper.connect, hb, Bool.false_eq_true, if_false,
        Prod.mk.injEq] at hc
      refine ⟨{ max := 10, idleTimeoutMillis := 30000,
                connectionTimeoutMillis := 10000 }, ?_, by decide, rfl, rfl⟩
      rw [← hc.2]
    · simp only [DatabaseHelper.connect, hb, if_true, Prod.mk.injEq,
        reduceCtorEq, false_and] at hc

/-- Claim C7 (witness): the thrown `TypeError` at a concrete connected
store, and the pool bound for a concrete first connection. -/
theorem connect_throws_when_connected_and_bounded_witness :
    DatabaseHelper.connect
        (Store.mk
          (some { max := 10, idleTimeoutMillis := 30000,
                  connectionTimeoutMillis := 10000 })
          sampleDB [] []) =
      (.error .typeError,
        Store.mk
          (some { max := 10, idleTimeoutMillis := 30000,
                  connectionTimeoutMillis := 10000 })
          sampleDB [] []) ∧
    (∃ cfg : PoolConfig,
      (Store.mk
        (some { max := 10, idleTimeoutMillis := 30000,
                connectionTimeoutMillis := 10000 })
        DB.empty [] [Stmt.selectOne]).pool = some cfg ∧ cfg.max ≤ 10 ∧
      cfg.idleTimeoutMillis = 30000 ∧ cfg.connectionTimeoutMillis = 10000) :=
  ⟨connect_throws_when_connected_and_bounded.1 _
      { max := 10, idleTimeoutMillis := 30000,
        connectionTimeoutMillis := 10000 } rfl,
    connect_throws_when_connected_and_bounded.2
      (Store.mk none DB.empty [] []) ()
      (Store.mk
        (some { max := 10, idleTimeoutMillis := 30000,
                connectionTimeoutMillis := 10000 })
        DB.empty [] [Stmt.selectOne]) rfl rfl⟩

/-- Claim C5 (counterexample): with an unreachable store (`connect()` fails),
`globalSetup` does not complete normally — it rethrows the connection error
out of the setup step. -/
theorem globalSetup_throws_counterexample :
    (globalSetup
        { cleanupOnStart := false, cleanupOnEnd := true,
          testEmailDomain := "x.test", testOrgPrefix := "test-org-" }
        { pool := none, db := sampleDB, failures := [true],
          trace := [] }).fst = .error .connectFailed := rfl

/-- Claim C5 (amended): the run-once setup attempts `connect()`; if the
connection attempt fails, setup logs the failure and RETHROWS the error, so
the failure propagates out of the setup step instead of completing
normally. -/
theorem globalSetup_propagates_connect_failure (cfg : HookConfig) (st : Store)
    (hp : st.pool = none) (hf : st.failures.headD false = true) :
    (globalSetup cfg st).fst = .error .connectFailed := by
  obtain ⟨pool, db, fl, tr⟩ := st
  simp only at hp hf
  subst hp
  cases fl with
  | nil => simp [List.headD] at hf
  | cons b fl2 =>
    simp only [List.headD] at hf
    subst hf
    simp [globalSetup, DatabaseHelper.connect]

/-- Claim C5 (witness): the amended behaviour at a concrete store. -/
theorem globalSetup_propagates_connect_failure_witness :
    (globalSetup
        { cleanupOnStart := true, cleanupOnEnd := true,
          testEmailDomain := "x.test", testOrgPrefix := "test-org-" }
        { pool := none, db := sampleDB, failures := [true],
          trace := [] }).fst = .error .connectFailed :=
  globalSetup_propagates_connect_failure _ _ rfl rfl

/-- Claim C1 (counterexample): with `DATABASE_URL` set, one registered user
and one registered organization, and an unreachable store (the pool is
`null` and the connection attempt fails), `cleanup()` completes without
throwing but does NOT clear the registrations: `getStats()` afterwards
still reports one pending user and one pending organization, not zero. -/
theorem cleanup_unreachable_counterexample :
    (TestCleanup.cleanup { databaseUrl := true, ci := false }
        { usersToCleanup := ["jo@x.test"],
          organizationsToCleanup := ["acme-co"] }
        { pool := none, db := DB.empty, failures := [true],
          trace := [] }).fst =
      .ok { usersToCleanup := ["jo@x.test"],
            organizationsToCleanup := ["acme-co"] } ∧
    TestCleanup.getStats
        { usersToCleanup := ["jo@x.test"],
          organizationsToCleanup := ["acme-co"] } ≠
      { users := 0, organizations := 0 } :=
  ⟨rfl, by decide⟩

/-- Claim C1 (amended): if `DATABASE_URL` is set and the store is
unreachable (the client is not connected and the connection attempt fails),
`cleanup()` completes without throwing but returns early with the
registrations left intact, so `getStats()` afterwards reports the same
pending counts as before the call, not zero. -/
theorem cleanup_unreachable_no_clear (env : ProcEnv) (tc : TestCleanup)
    (st : Store) (hdb : env.databaseUrl = true) (hp : st.pool = none)
    (hf : st.failures.headD false = true) :
    ∃ tc1, (TestCleanup.cleanup env tc st).fst = .ok tc1 ∧
      TestCleanup.getStats tc1 = TestCleanup.getStats tc := by
  obtain ⟨pool, db, fl, tr⟩ := st
  simp only at hp hf
  subst hp
  refine ⟨tc, ?_, rfl⟩
  cases fl with
  | nil => simp [List.headD] at hf
  | cons b fl2 =>
    simp only [List.headD] at hf
    subst hf
    simp [TestCleanup.cleanup, hdb, DatabaseHelper.connect]

/-- Claim C1 (witness): the amended behaviour at a concrete environment,
registry and store. -/
theorem cleanup_unreachable_no_clear_witness :
    ∃ tc1,
      (TestCleanup.cleanup { databaseUrl := true, ci := true }
          { usersToCleanup := ["a@x.test", "b@x.test"],
            organizationsToCleanup := ["org-a"] }
          { pool := none, db := sampleDB, failures := [true],
            trace := [] }).fst = .ok tc1 ∧
      TestCleanup.getStats tc1 =
        TestCleanup.getStats
          { usersToCleanup := ["a@x.test", "b@x.test"],
            organizationsToCleanup := ["org-a"] } :=
  cleanup_unreachable_no_clear _ _ _ rfl rfl rfl

/-- A query against an unreachable store (no pool, or the next outcome is a
failure) throws. -/
theorem query_unreachable (stmt : Stmt) (st : Store)
    (h : st.pool = none ∨ st.failures.headD false = true) :
    ∃ e st1, DatabaseHelper.query stmt st = (.error e, st1) := by
  obtain ⟨pool, db, fl, tr⟩ := st
  rcases h with hp | hf
  · simp only at hp
    subst hp
    exact ⟨.notConnected, _, rfl⟩
  · cases pool with
    | none => exact ⟨.notConnected, _, rfl⟩
    | some p =>
      simp only at hf
      cases fl with
      | nil => simp [List.headD] at hf
      | cons b fl2 =>
        simp only [List.headD] at hf
        subst hf
        exact ⟨.queryFailed, _, rfl⟩

/-- `findUserByEmail` always returns (the catch converts every error to
`null`). -/
theorem findUserByEmail_ok (email : String) (st : Store) :
    ∃ v st1, DatabaseHelper.findUserByEmail email st = (.ok v, st1) := by
  unfold DatabaseHelper.findUserByEmail
  rcases h : DatabaseHelper.query (.selectUserByEmail email) st with ⟨r, st1⟩
  cases r with
  | ok rows => exact ⟨rows.head?, st1, rfl⟩
  | error e => exact ⟨none, st1, rfl⟩

/-- `findUserByEmail` on an unreachable store returns `null`. -/
theorem findUserByEmail_unreachable (email : String) (st : Store)
    (h : st.pool = none ∨ st.failures.headD false = true) :
    ∃ st1, DatabaseHelper.findUserByEmail email st = (.ok none, st1) := by
  obtain ⟨e, st1, hq⟩ := query_unreachable (.selectUserByEmail email) st h
  exact ⟨st1, by unfold DatabaseHelper.findUserByEmail; rw [hq]⟩

/-- `deleteUserByEmail` always returns (the catch converts every error to
`false`). -/
theorem deleteUserByEmail_ok (email : String) (st : Store) :
    ∃ b st1, DatabaseHelper.deleteUserByEmail email st = (.ok b, st1) := by
  obtain ⟨v, stA, hA⟩ := findUserByEmail_ok email st
  cases v with
  | none => exact ⟨false, stA, by simp [DatabaseHelper.deleteUserByEmail, hA]⟩
  | some uid =>
    rcases hD : DatabaseHelper.deleteUserDeps uid stA with ⟨rD, stB⟩
    cases rD with
    | error e =>
      exact ⟨false, stB, by simp [DatabaseHelper.deleteUserByEmail, hA, hD]⟩
    | ok u =>
      rcases hQ : DatabaseHelper.query (.deleteUserById uid) stB with ⟨rQ, stC⟩
      cases rQ with
      | error e =>
        exact ⟨false, stC,
          by simp [DatabaseHelper.deleteUserByEmail, hA, hD, hQ]⟩
      | ok rows =>
        exact ⟨!rows.isEmpty, stC,
          by simp [DatabaseHelper.deleteUserByEmail, hA, hD, hQ]⟩

/-- `deleteUserByEmail` on an unreachable store returns `false`. -/
theorem deleteUserByEmail_unreachable (email : String) (st : Store)
    (h : st.pool = none ∨ st.failures.headD false = true) :
    ∃ st1, DatabaseHelper.deleteUserByEmail email st = (.ok false, st1) := by
  obtain ⟨st1, hf⟩ := findUserByEmail_unreachable email st h
  exact ⟨st1, by unfold DatabaseHelper.deleteUserByEmail; rw [hf]⟩

/-- `cleanupTestUsers` always returns (the catch converts every error to
`0`). -/
theorem cleanupTestUsers_ok (pat : String) (st : Store) :
    ∃ n st1, DatabaseHelper.cleanupTestUsers pat st = (.ok n, st1) := by
  rcases hS : DatabaseHelper.query (.selectUsersByEmailLike pat) st
    with ⟨rS, stA⟩
  cases rS with
  | error e => exact ⟨0, stA, by simp [DatabaseHelper.cleanupTestUsers, hS]⟩
  | ok users =>
    by_cases hu : users.isEmpty
    · exact ⟨0, stA, by simp [DatabaseHelper.cleanupTestUsers, hS, hu]⟩
    · rcases hL : DatabaseHelper.usersDepsLoop users stA with ⟨rL, stB⟩
      cases rL with
      | error e =>
        exact ⟨0, stB, by simp [DatabaseHelper.cleanupTestUsers, hS, hu, hL]⟩
      | ok u =>
        rcases hQ : DatabaseHelper.query (.deleteUsersByEmailLike pat) stB
          with ⟨rQ, stC⟩
        cases rQ with
        | error e =>
          exact ⟨0, stC,
            by simp [DatabaseHelper.cleanupTestUsers, hS, hu, hL, hQ]⟩
        | ok rows =>
          exact ⟨rows.length, stC,
            by simp [DatabaseHelper.cleanupTestUsers, hS, hu, hL, hQ]⟩

/-- `cleanupTestUsers` on an unreachable store returns `0`. -/
theorem cleanupTestUsers_unreachable (pat : String) (st : Store)
    (h : st.pool = none ∨ st.failures.headD false = true) :
    ∃ st1, DatabaseHelper.cleanupTestUsers pat st = (.ok 0, st1) := by
  obtain ⟨e, st1, hq⟩ := query_unreachable (.selectUsersByEmailLike pat) st h
  exact ⟨st1, by unfold DatabaseHelper.cleanupTestUsers; rw [hq]⟩

/-- Claim C10: for every store state and every query outcome — including
query errors and the not-connected state reached inside a helper —
`findUserByEmail`, `deleteUserByEmail` and `cleanupTestUsers` never throw to
their caller; and on an unreachable store (or a failing first query) they
return `null`, `false` and `0` respectively, the same values an absent row
produces, so the caller cannot distinguish a failure from an absence. -/
theorem helpers_never_throw (st : Store) (email pat : String) :
    (∃ v st1, DatabaseHelper.findUserByEmail email st = (.ok v, st1)) ∧
    (∃ b st1, DatabaseHelper.deleteUserByEmail email st = (.ok b, st1)) ∧
    (∃ n st1, DatabaseHelper.cleanupTestUsers pat st = (.ok n, st1)) ∧
    ((st.pool = none ∨ st.failures.headD false = true) →
      (DatabaseHelper.findUserByEmail email st).fst = .ok none ∧
      (DatabaseHelper.deleteUserByEmail email st).fst = .ok false ∧
      (DatabaseHelper.cleanupTestUsers pat st).fst = .ok 0) := by
  refine ⟨findUserByEmail_ok email st, deleteUserByEmail_ok email st,
    cleanupTestUsers_ok pat st, fun h => ⟨?_, ?_, ?_⟩⟩
  · obtain ⟨st1, hf⟩ := findUserByEmail_unreachable email st h
    rw [hf]
  · obtain ⟨st1, hf⟩ := deleteUserByEmail_unreachable email st h
    rw [hf]
  · obtain ⟨st1, hf⟩ := cleanupTestUsers_unreachable pat st h
    rw [hf]

/-- Claim C10 (witness): concrete disconnected store, with the failure
branch discharged. -/
theorem helpers_never_throw_witness :
    (∃ v st1, DatabaseHelper.findUserByEmail "jo@x.test"
      (Store.mk none sampleDB [] []) = (.ok v, st1)) ∧
    (∃ b st1, DatabaseHelper.deleteUserByEmail "jo@x.test"
      (Store.mk none sampleDB [] []) = (.ok b, st1)) ∧
    (∃ n st1, DatabaseHelper.cleanupTestUsers "%@x.test"
      (Store.mk none sampleDB [] []) = (.ok n, st1)) ∧
    ((DatabaseHelper.findUserByEmail "jo@x.test"
        (Store.mk none sampleDB [] [])).fst = .ok none ∧
      (DatabaseHelper.deleteUserByEmail "jo@x.test"
        (Store.mk none sampleDB [] [])).fst = .ok false ∧
      (DatabaseHelper.cleanupTestUsers "%@x.test"
        (Store.mk none sampleDB [] [])).fst = .ok 0) :=
  ⟨(helpers_never_throw (Store.mk none sampleDB [] []) "jo@x.test"
      "%@x.test").1,
    (helpers_never_throw (Store.mk none sampleDB [] []) "jo@x.test"
      "%@x.test").2.1,
    (helpers_never_throw (Store.mk none sampleDB [] []) "jo@x.test"
      "%@x.test").2.2.1,
    (helpers_never_throw (Store.mk none sampleDB [] []) "jo@x.test"
      "%@x.test").2.2.2 (Or.inl rfl)⟩

/-- `connect` on an already-connected store throws the `TypeError` of the
undefined `Logger.debug`, leaving the state unchanged. -/
theorem connect_already_connected (st : Store) (p : PoolConfig)
    (hp : st.pool = some p) :
    DatabaseHelper.connect st = (.error .typeError, st) := by
  obtain ⟨pool, db, fl, tr⟩ := st
  simp only at hp
  subst hp
  rfl

/-- A query preserves the pool and only appends to the trace: nothing when
not connected, exactly its statement otherwise. -/
theorem query_state (stmt : Stmt) (st : Store) (r : Except DBErr (List String))
    (st1 : Store) (h : DatabaseHelper.query stmt st = (r, st1)) :
    st1.pool = st.pool ∧ ∃ T, st1.trace = st.trace ++ T ∧
      (st.pool = none → T = []) ∧ (st.pool.isSome → T = [stmt]) := by
  obtain ⟨pool, db, fl, tr⟩ := st
  cases pool with
  | none =>
    simp only [DatabaseHelper.query, Prod.mk.injEq] at h
    obtain ⟨h1, h2⟩ := h
    subst h2
    exact ⟨rfl, [], by simp, fun _ => rfl, fun hp => by simp at hp⟩
  | some p0 =>
    cases hb : fl.headD false with
    | false =>
      simp only [DatabaseHelper.query, hb, Bool.false_eq_true, if_false,
        Prod.mk.injEq] at h
      obtain ⟨h1, h2⟩ := h
      subst h2
      exact ⟨rfl, [stmt], rfl, fun hn => by simp at hn, fun _ => rfl⟩
    | true =>
      simp only [DatabaseHelper.query, hb, if_true, Prod.mk.injEq] at h
      obtain ⟨h1, h2⟩ := h
      subst h2
      exact ⟨rfl, [stmt], rfl, fun hn => by simp at hn, fun _ => rfl⟩

/-- `deleteUserDeps` preserves the pool and only appends to the trace. -/
theorem deleteUserDeps_state (uid : String) (st : Store)
    (r : Except DBErr Unit) (st1 : Store)
    (h : DatabaseHelper.deleteUserDeps uid st = (r, st1)) :
    st1.pool = st.pool ∧ ∃ T, st1.trace = st.trace ++ T := by
  unfold DatabaseHelper.deleteUserDeps at h
  rcases h1 : DatabaseHelper.query (.deleteSessionsByUser uid) st with ⟨r1, s1⟩
  simp only [h1] at h
  obtain ⟨hp1, T1, ht1, _, _⟩ := query_state _ _ _ _ h1
  cases r1 with
  | error e =>
    simp only [Prod.mk.injEq] at h
    obtain ⟨ha, hb⟩ := h
    subst hb
    exact ⟨hp1, T1, ht1⟩
  | ok v1 =>
    rcases h2 : DatabaseHelper.query (.deleteAccountsByUser uid) s1
      with ⟨r2, s2⟩
    simp only [h2] at h
    obtain ⟨hp2, T2, ht2, _, _⟩ := query_state _ _ _ _ h2
    cases r2 with
    | error e =>
      simp only [Prod.mk.injEq] at h
      obtain ⟨ha, hb⟩ := h
      subst hb
      exact ⟨hp2.trans hp1, T1 ++ T2, by rw [ht2, ht1, List.append_assoc]⟩
    | ok v2 =>
      rcases h3 : DatabaseHelper.query (.deleteMembersByUser uid) s2
        with ⟨r3, s3⟩
      simp only [h3] at h
      obtain ⟨hp3, T3, ht3, _, _⟩ := query_state _ _ _ _ h3
      cases r3 with
      | error e =>
        simp only [Prod.mk.injEq] at h
        obtain ⟨ha, hb⟩ := h
        subst hb
        exact ⟨(hp3.trans hp2).trans hp1, T1 ++ (T2 ++ T3),
          by rw [ht3, ht2, ht1]; simp [List.append_assoc]⟩
      | ok v3 =>
        rcases h4 : DatabaseHelper.query (.deleteInvitationsByInviter uid) s3
          with ⟨r4, s4⟩
        simp only [h4] at h
        obtain ⟨hp4, T4, ht4, _, _⟩ := query_state _ _ _ _ h4
        cases r4 with
        | error e =>
          simp only [Prod.mk.injEq] at h
          obtain ⟨ha, hb⟩ := h
          subst hb
          exact ⟨((hp4.trans hp3).trans hp2).trans hp1,
            T1 ++ (T2 ++ (T3 ++ T4)),
            by rw [ht4, ht3, ht2, ht1]; simp [List.append_assoc]⟩
        | ok v4 =>
          simp only [Prod.mk.injEq] at h
          obtain ⟨ha, hb⟩ := h
          subst hb
          exact ⟨((hp4.trans hp3).trans hp2).trans hp1,
            T1 ++ (T2 ++ (T3 ++ T4)),
            by rw [ht4, ht3, ht2, ht1]; simp [List.append_assoc]⟩

/-- `deleteOrgDeps` preserves the pool and only appends to the trace. -/
theorem deleteOrgDeps_state (oid : String) (st : Store)
    (r : Except DBErr Unit) (st1 : Store)
    (h : DatabaseHelper.deleteOrgDeps oid st = (r, st1)) :
    st1.pool = st.pool ∧ ∃ T, st1.trace = st.trace ++ T := by
  unfold DatabaseHelper.deleteOrgDeps at h
  rcases h1 : DatabaseHelper.query (.deleteMembersByOrg oid) st with ⟨r1, s1⟩
  simp only [h1] at h
  obtain ⟨hp1, T1, ht1, _, _⟩ := query_state _ _ _ _ h1
  cases r1 with
  | error e =>
    simp only [Prod.mk.injEq] at h
    obtain ⟨ha, hb⟩ := h
    subst hb
    exact ⟨hp1, T1, ht1⟩
  | ok v1 =>
    rcases h2 : DatabaseHelper.query (.deleteInvitationsByOrg oid) s1
      with ⟨r2, s2⟩
    simp only [h2] at h
    obtain ⟨hp2, T2, ht2, _, _⟩ := query_state _ _ _ _ h2
    cases r2 with
    | error e =>
      simp only [Prod.mk.injEq] at h
      obtain ⟨ha, hb⟩ := h
      subst hb
      exact ⟨hp2.trans hp1, T1 ++ T2, by rw [ht2, ht1, List.append_assoc]⟩
    | ok v2 =>
      rcases h3 : DatabaseHelper.query (.deleteOrgRolesByOrg oid) s2
        with ⟨r3, s3⟩
      simp only [h3] at h
      obtain ⟨hp3, T3, ht3, _, _⟩ := query_state _ _ _ _ h3
      cases r3 with
      | error e =>
        simp only [Prod.mk.injEq] at h
        obtain ⟨ha, hb⟩ := h
        subst hb
        exact ⟨(hp3.trans hp2).trans hp1, T1 ++ (T2 ++ T3),
          by rw [ht3, ht2, ht1]; simp [List.append_assoc]⟩
      | ok v3 =>
        simp only [Prod.mk.injEq] at h
        obtain ⟨ha, hb⟩ := h
        subst hb
        exact ⟨(hp3.trans hp2).trans hp1, T1 ++ (T2 ++ T3),
          by rw [ht3, ht2, ht1]; simp [List.append_assoc]⟩

/-- The per-user dependent-deletion loop preserves the pool and only appends
to the trace. -/
theorem usersDepsLoop_state : ∀ (ids : List String) (st : Store)
    (r : Except DBErr Unit) (st1 : Store),
    DatabaseHelper.usersDepsLoop ids st = (r, st1) →
    st1.pool = st.pool ∧ ∃ T, st1.trace = st.trace ++ T := by
  intro ids
  induction ids with
  | nil =>
    intro st r st1 h
    simp only [DatabaseHelper.usersDepsLoop, Prod.mk.injEq] at h
    obtain ⟨h1, h2⟩ := h
    subst h2
    exact ⟨rfl, [], by simp⟩
  | cons uid rest ih =>
    intro st r st1 h
    simp only [DatabaseHelper.usersDepsLoop] at h
    rcases hD : DatabaseHelper.deleteUserDeps uid st with ⟨rD, sA⟩
    simp only [hD] at h
    obtain ⟨hp, TA, hta⟩ := deleteUserDeps_state _ _ _ _ hD
    cases rD with
    | error e =>
      simp only [Prod.mk.injEq] at h
      obtain ⟨h1, h2⟩ := h
      subst h2
      exact ⟨hp, TA, hta⟩
    | ok v =>
      obtain ⟨hp2, TB, htb⟩ := ih sA r st1 h
      exact ⟨hp2.trans hp, TA ++ TB, by rw [htb, hta, List.append_assoc]⟩

/-- The per-organization dependent-deletion loop preserves the pool and only
appends to the trace. -/
theorem orgsDepsLoop_state : ∀ (ids : List String) (st : Store)
    (r : Except DBErr Unit) (st1 : Store),
    DatabaseHelper.orgsDepsLoop ids st = (r, st1) →
    st1.pool = st.pool ∧ ∃ T, st1.trace = st.trace ++ T := by
  intro ids
  induction ids with
  | nil =>
    intro st r st1 h
    simp only [DatabaseHelper.orgsDepsLoop, Prod.mk.injEq] at h
    obtain ⟨h1, h2⟩ := h
    subst h2
    exact ⟨rfl, [], by simp⟩
  | cons oid rest ih =>
    intro st r st1 h
    simp only [DatabaseHelper.orgsDepsLoop] at h
    rcases hD : DatabaseHelper.deleteOrgDeps oid st with ⟨rD, sA⟩
    simp only [hD] at h
    obtain ⟨hp, TA, hta⟩ := deleteOrgDeps_state _ _ _ _ hD
    cases rD with
    | error e =>
      simp only [Prod.mk.injEq] at h
      obtain ⟨h1, h2⟩ := h
      subst h2
      exact ⟨hp, TA, hta⟩
    | ok v =>
      obtain ⟨hp2, TB, htb⟩ := ih sA r st1 h
      exact ⟨hp2.trans hp, TA ++ TB, by rw [htb, hta, List.append_assoc]⟩

/-- On a connected store, `cleanupTestUsers` always issues its selection
statement, keeps the pool, and only appends to the trace. -/
theorem cleanupTestUsers_issues (pat : String) (st : Store) (p : PoolConfig)
    (hp : st.pool = some p) (r : Except DBErr Nat) (st1 : Store)
    (h : DatabaseHelper.cleanupTestUsers pat st = (r, st1)) :
    Stmt.selectUsersByEmailLike pat ∈ st1.trace ∧ st1.pool = some p ∧
      ∃ T, st1.trace = st.trace ++ T := by
  unfold DatabaseHelper.cleanupTestUsers at h
  rcases hS : DatabaseHelper.query (.selectUsersByEmailLike pat) st
    with ⟨rS, sA⟩
  simp only [hS] at h
  obtain ⟨hpA, TA, htA, _, hTA⟩ := query_state _ _ _ _ hS
  have hTAeq : TA = [Stmt.selectUsersByEmailLike pat] := hTA (by rw [hp]; rfl)
  subst hTAeq
  have hAmem : Stmt.selectUsersByEmailLike pat ∈ sA.trace := by
    rw [htA]
    exact List.mem_append_right _ (List.mem_singleton.mpr rfl)
  have hpA2 : sA.pool = some p := by rw [hpA, hp]
  cases rS with
  | error e =>
    simp only [Prod.mk.injEq] at h
    obtain ⟨h1, h2⟩ := h
    subst h2
    exact ⟨hAmem, hpA2, _, htA⟩
  | ok users =>
    by_cases hu : users.isEmpty
    · simp only [hu, if_true] at h
      simp only [Prod.mk.injEq] at h
      obtain ⟨h1, h2⟩ := h
      subst h2
      exact ⟨hAmem, hpA2, _, htA⟩
    · simp only [hu, if_false, Bool.false_eq_true] at h
      rcases hL : DatabaseHelper.usersDepsLoop users sA with ⟨rL, sB⟩
      simp only [hL] at h
      obtain ⟨hpB, TB, htB⟩ := usersDepsLoop_state _ _ _ _ hL
      have hBmem : Stmt.selectUsersByEmailLike pat ∈ sB.trace := by
        rw [htB]
        exact List.mem_append_left _ hAmem
      have hpB2 : sB.pool = some p := by rw [hpB, hpA2]
      cases rL with
      | error e =>
        simp only [Prod.mk.injEq] at h
        obtain ⟨h1, h2⟩ := h
        subst h2
        exact ⟨hBmem, hpB2, _, by rw [htB, htA, List.append_assoc]⟩
      | ok v =>
        rcases hQ : DatabaseHelper.query (.deleteUsersByEmailLike pat) sB
          with ⟨rQ, sC⟩
        simp only [hQ] at h
        obtain ⟨hpC, TC, htC, _, _⟩ := query_state _ _ _ _ hQ
        have hCmem : Stmt.selectUsersByEmailLike pat ∈ sC.trace := by
          rw [htC]
          exact List.mem_append_left _ hBmem
        have hpC2 : sC.pool = some p := by rw [hpC, hpB2]
        have htCfull : sC.trace = st.trace ++
            ([Stmt.selectUsersByEmailLike pat] ++ (TB ++ TC)) := by
          rw [htC, htB, htA]
          simp [List.append_assoc]
        cases rQ with
        | error e =>
          simp only [Prod.mk.injEq] at h
          obtain ⟨h1, h2⟩ := h
          subst h2
          exact ⟨hCmem, hpC2, _, htCfull⟩
        | ok rows =>
          simp only [Prod.mk.injEq] at h
          obtain ⟨h1, h2⟩ := h
          subst h2
          exact ⟨hCmem, hpC2, _, htCfull⟩

/-- On a connected store, `cleanupTestOrganizations` always issues its
selection statement, keeps the pool, and only appends to the trace. -/
theorem cleanupTestOrganizations_issues (pat : String) (st : Store)
    (p : PoolConfig) (hp : st.pool = some p) (r : Except DBErr Nat)
    (st1 : Store)
    (h : DatabaseHelper.cleanupTestOrganizations pat st = (r, st1)) :
    Stmt.selectOrgsBySlugLike pat ∈ st1.trace ∧ st1.pool = some p ∧
      ∃ T, st1.trace = st.trace ++ T := by
  unfold DatabaseHelper.cleanupTestOrganizations at h
  rcases hS : DatabaseHelper.query (.selectOrgsBySlugLike pat) st
    with ⟨rS, sA⟩
  simp only [hS] at h
  obtain ⟨hpA, TA, htA, _, hTA⟩ := query_state _ _ _ _ hS
  have hTAeq : TA = [Stmt.selectOrgsBySlugLike pat] := hTA (by rw [hp]; rfl)
  subst hTAeq
  have hAmem : Stmt.selectOrgsBySlugLike pat ∈ sA.trace := by
    rw [htA]
    exact List.mem_append_right _ (List.mem_singleton.mpr rfl)
  have hpA2 : sA.pool = some p := by rw [hpA, hp]
  cases rS with
  | error e =>
    simp only [Prod.mk.injEq] at h
    obtain ⟨h1, h2⟩ := h
    subst h2
    exact ⟨hAmem, hpA2, _, htA⟩
  | ok orgs =>
    by_cases hu : orgs.isEmpty
    · simp only [hu, if_true] at h
      simp only [Prod.mk.injEq] at h
      obtain ⟨h1, h2⟩ := h
      subst h2
      exact ⟨hAmem, hpA2, _, htA⟩
    · simp only [hu, if_false, Bool.false_eq_true] at h
      rcases hL : DatabaseHelper.orgsDepsLoop orgs sA with ⟨rL, sB⟩
      simp only [hL] at h
      obtain ⟨hpB, TB, htB⟩ := orgsDepsLoop_state _ _ _ _ hL
      have hBmem : Stmt.selectOrgsBySlugLike pat ∈ sB.trace := by
        rw [htB]
        exact List.mem_append_left _ hAmem
      have hpB2 : sB.pool = some p := by rw [hpB, hpA2]
      cases rL with
      | error e =>
        simp only [Prod.mk.injEq] at h
        obtain ⟨h1, h2⟩ := h
        subst h2
        exact ⟨hBmem, hpB2, _, by rw [htB, htA, List.append_assoc]⟩
      | ok v =>
        rcases hQ : DatabaseHelper.query (.deleteOrgsBySlugLike pat) sB
          with ⟨rQ, sC⟩
        simp only [hQ] at h
        obtain ⟨hpC, TC, htC, _, _⟩ := query_state _ _ _ _ hQ
        have hCmem : Stmt.selectOrgsBySlugLike pat ∈ sC.trace := by
          rw [htC]
          exact List.mem_append_left _ hBmem
        have hpC2 : sC.pool = some p := by rw [hpC, hpB2]
        have htCfull : sC.trace = st.trace ++
            ([Stmt.selectOrgsBySlugLike pat] ++ (TB ++ TC)) := by
          rw [htC, htB, htA]
          simp [List.append_assoc]
        cases rQ with
        | error e =>
          simp only [Prod.mk.injEq] at h
          obtain ⟨h1, h2⟩ := h
          subst h2
          exact ⟨hCmem, hpC2, _, htCfull⟩
        | ok rows =>
          simp only [Prod.mk.injEq] at h
          obtain ⟨h1, h2⟩ := h
          subst h2
          exact ⟨hCmem, hpC2, _, htCfull⟩

/-- On a connected store, `disconnect` records the `pool.end()` call. -/
theorem disconnect_trace (st : Store) (p : PoolConfig) (hp : st.pool = some p)
    (r : Except DBErr Unit) (st1 : Store)
    (h : DatabaseHelper.disconnect st = (r, st1)) :
    st1.trace = st.trace ++ [Stmt.poolEnd] := by
  obtain ⟨pool, db, fl, tr⟩ := st
  simp only at hp
  subst hp
  cases hb : fl.headD false with
  | false =>
    simp only [DatabaseHelper.disconnect, hb, Bool.false_eq_true, if_false,
      Prod.mk.injEq] at h
    obtain ⟨h1, h2⟩ := h
    subst h2
    rfl
  | true =>
    simp only [DatabaseHelper.disconnect, hb, if_true, Prod.mk.injEq] at h
    obtain ⟨h1, h2⟩ := h
    subst h2
    rfl

/-- Claim C8: global teardown never raises past its own boundary — for every
environment, configuration and store (hence every combination of failures of
the connect attempt, the two cleanup sweeps and the disconnect step) it
returns normally; and with `DATABASE_URL` set, `cleanupOnEnd` enabled and a
connected pool, the user sweep, the organization sweep and the disconnect
are each still attempted (their statements appear in the final trace)
whatever failures the earlier steps hit. -/
theorem globalTeardown_never_throws :
    (∀ env cfg st, ∃ st1, globalTeardown env cfg st = (.ok (), st1)) ∧
    (∀ env cfg st p, env.databaseUrl = true → cfg.cleanupOnEnd = true →
      st.pool = some p →
      ∃ st1, globalTeardown env cfg st = (.ok (), st1) ∧
        Stmt.selectUsersByEmailLike ("%@" ++ cfg.testEmailDomain) ∈
          st1.trace ∧
        Stmt.selectOrgsBySlugLike (cfg.testOrgPrefix ++ "%") ∈ st1.trace ∧
        Stmt.poolEnd ∈ st1.trace) := by
  constructor
  · intro env cfg st
    cases henv : env.databaseUrl with
    | false => exact ⟨st, by unfold globalTeardown; rw [henv]; rfl⟩
    | true => exact ⟨_, by unfold globalTeardown; rw [henv]; rfl⟩
  · intro env cfg st p henv hend hp
    have hc := connect_already_connected st p hp
    rcases hU : DatabaseHelper.cleanupTestUsers ("%@" ++ cfg.testEmailDomain)
      st with ⟨rU, sU⟩
    obtain ⟨hUmem, hUpool, TU, hUtrace⟩ :=
      cleanupTestUsers_issues _ st p hp _ _ hU
    rcases hO : DatabaseHelper.cleanupTestOrganizations
      (cfg.testOrgPrefix ++ "%") sU with ⟨rO, sO⟩
    obtain ⟨hOmem, hOpool, TO, hOtrace⟩ :=
      cleanupTestOrganizations_issues _ sU p hUpool _ _ hO
    rcases hD : DatabaseHelper.disconnect sO with ⟨rD, sD⟩
    have hDtrace := disconnect_trace sO p hOpool _ _ hD
    have hrun : globalTeardown env cfg st = (.ok (), sD) := by
      cases rU <;> cases rO <;> cases rD <;>
        simp only [globalTeardown, henv, if_true, hc, hend,
          DatabaseHelper.isConnected, hp, hUpool, hOpool, hU, hO, hD,
          Option.isSome_some, Bool.and_self, if_true]
    refine ⟨sD, hrun, ?_, ?_, ?_⟩
    · rw [hDtrace, hOtrace]
      exact List.mem_append_left _ (List.mem_append_left _ hUmem)
    · rw [hDtrace]
      exact List.mem_append_left _ hOmem
    · rw [hDtrace]
      exact List.mem_append_right _ (List.mem_singleton.mpr rfl)

/-- Claim C8 (witness): concrete teardown runs, one with every step
succeeding and the membership conjuncts discharged at a connected store. -/
theorem globalTeardown_never_throws_witness :
    (∃ st1, globalTeardown { databaseUrl := false, ci := false }
        { cleanupOnStart := false, cleanupOnEnd := true,
          testEmailDomain := "x.test", testOrgPrefix := "test-org-" }
        (Store.mk none sampleDB [true] []) = (.ok (), st1)) ∧
    (∃ st1, globalTeardown { databaseUrl := true, ci := false }
        { cleanupOnStart := false, cleanupOnEnd := true,
          testEmailDomain := "x.test", testOrgPrefix := "test-org-" }
        (Store.mk
          (some { max := 10, idleTimeoutMillis := 30000,
                  connectionTimeoutMillis := 10000 })
          sampleDB [false, true, false] []) = (.ok (), st1) ∧
      Stmt.selectUsersByEmailLike "%@x.test" ∈ st1.trace ∧
      Stmt.selectOrgsBySlugLike "test-org-%" ∈ st1.trace ∧
      Stmt.poolEnd ∈ st1.trace) :=
  ⟨globalTeardown_never_throws.1 _ _ _,
    globalTeardown_never_throws.2 { databaseUrl := true, ci := false }
      { cleanupOnStart := false, cleanupOnEnd := true,
        testEmailDomain := "x.test", testOrgPrefix := "test-org-" }
      (Store.mk
        (some { max := 10, idleTimeoutMillis := 30000,
                connectionTimeoutMillis := 10000 })
        sampleDB [false, true, false] [])
      { max := 10, idleTimeoutMillis := 30000,
        connectionTimeoutMillis := 10000 } rfl rfl rfl⟩

/-- `deleteOrgDeps` on a connected store issues a nonempty prefix of the
three dependent-row deletions, all of them when it succeeds. -/
theorem deleteOrgDeps_seg (oid : String) (st : Store) (p : PoolConfig)
    (hp : st.pool = some p) (r : Except DBErr Unit) (st1 : Store)
    (h : DatabaseHelper.deleteOrgDeps oid st = (r, st1)) :
    st1.pool = some p ∧
    ∃ seg, st1.trace = st.trace ++ seg ∧ seg ≠ [] ∧
      seg <+: [Stmt.deleteMembersByOrg oid, Stmt.deleteInvitationsByOrg oid,
        Stmt.deleteOrgRolesByOrg oid] ∧
      (∀ u, r = .ok u → seg = [Stmt.deleteMembersByOrg oid,
        Stmt.deleteInvitationsByOrg oid, Stmt.deleteOrgRolesByOrg oid]) := by
  unfold DatabaseHelper.deleteOrgDeps at h
  rcases h1 : DatabaseHelper.query (.deleteMembersByOrg oid) st with ⟨r1, s1⟩
  simp only [h1] at h
  obtain ⟨hq1, T1, ht1, _, hT1⟩ := query_state _ _ _ _ h1
  have hT1e : T1 = [Stmt.deleteMembersByOrg oid] := hT1 (by rw [hp]; rfl)
  subst hT1e
  have hp1 : s1.pool = some p := by rw [hq1, hp]
  cases r1 with
  | error e =>
    simp only [Prod.mk.injEq] at h
    obtain ⟨hr, hs⟩ := h
    subst hs
    refine ⟨hp1, _, ht1, by simp,
      ⟨[Stmt.deleteInvitationsByOrg oid, Stmt.deleteOrgRolesByOrg oid],
        rfl⟩, ?_⟩
    intro u hu
    rw [← hr] at hu
    simp at hu
  | ok v1 =>
    rcases h2 : DatabaseHelper.query (.deleteInvitationsByOrg oid) s1
      with ⟨r2, s2⟩
    simp only [h2] at h
    obtain ⟨hq2, T2, ht2, _, hT2⟩ := query_state _ _ _ _ h2
    have hT2e : T2 = [Stmt.deleteInvitationsByOrg oid] := hT2
      (by rw [hp1]; rfl)
    subst hT2e
    have hp2 : s2.pool = some p := by rw [hq2, hp1]
    have ht2f : s2.trace = st.trace ++
        [Stmt.deleteMembersByOrg oid, Stmt.deleteInvitationsByOrg oid] := by
      rw [ht2, ht1]
      simp
    cases r2 with
    | error e =>
      simp only [Prod.mk.injEq] at h
      obtain ⟨hr, hs⟩ := h
      subst hs
      refine ⟨hp2, _, ht2f, by simp,
        ⟨[Stmt.deleteOrgRolesByOrg oid], rfl⟩, ?_⟩
      intro u hu
      rw [← hr] at hu
      simp at hu
    | ok v2 =>
      rcases h3 : DatabaseHelper.query (.deleteOrgRolesByOrg oid) s2
        with ⟨r3, s3⟩
      simp only [h3] at h
      obtain ⟨hq3, T3, ht3, _, hT3⟩ := query_state _ _ _ _ h3
      have hT3e : T3 = [Stmt.deleteOrgRolesByOrg oid] := hT3
        (by rw [hp2]; rfl)
      subst hT3e
      have hp3 : s3.pool = some p := by rw [hq3, hp2]
      have ht3f : s3.trace = st.trace ++
          [Stmt.deleteMembersByOrg oid, Stmt.deleteInvitationsByOrg oid,
            Stmt.deleteOrgRolesByOrg oid] := by
        rw [ht3, ht2f]
        simp
      cases r3 with
      | error e =>
        simp only [Prod.mk.injEq] at h
        obtain ⟨hr, hs⟩ := h
        subst hs
        exact ⟨hp3, _, ht3f, by simp, List.prefix_refl _, fun u hu => rfl⟩
      | ok v3 =>
        simp only [Prod.mk.injEq] at h
        obtain ⟨hr, hs⟩ := h
        subst hs
        exact ⟨hp3, _, ht3f, by simp, List.prefix_refl _, fun u hu => rfl⟩

/-- `deleteOrganizationBySlug` on a connected store emits exactly one
deletion-attempt segment: a nonempty prefix of the FK-safe sequence. -/
theorem deleteOrganizationBySlug_seg (slug : String) (st : Store)
    (p : PoolConfig) (hp : st.pool = some p) (res : Except DBErr Bool)
    (st1 : Store)
    (h : DatabaseHelper.deleteOrganizationBySlug slug st = (res, st1)) :
    st1.pool = some p ∧
      ∃ seg, st1.trace = st.trace ++ seg ∧ OrgSeg slug seg := by
  rcases hS : DatabaseHelper.query (.selectOrgBySlug slug) st with ⟨rS, sA⟩
  obtain ⟨hqA, TA, htA, _, hTA⟩ := query_state _ _ _ _ hS
  have hTAe : TA = [Stmt.selectOrgBySlug slug] := hTA (by rw [hp]; rfl)
  subst hTAe
  have hpA : sA.pool = some p := by rw [hqA, hp]
  cases rS with
  | error e =>
    have hF : DatabaseHelper.findOrganizationBySlug slug st = (.ok none, sA) :=
      by simp [DatabaseHelper.findOrganizationBySlug, hS]
    simp only [DatabaseHelper.deleteOrganizationBySlug, hF,
      Prod.mk.injEq] at h
    obtain ⟨hr, hs⟩ := h
    subst hs
    exact ⟨hpA, _, htA, "",
      by simp, ⟨[Stmt.deleteMembersByOrg "", Stmt.deleteInvitationsByOrg "",
        Stmt.deleteOrgRolesByOrg "", Stmt.deleteOrgById ""], rfl⟩⟩
  | ok rows =>
    cases rows with
    | nil =>
      have hF : DatabaseHelper.findOrganizationBySlug slug st =
          (.ok none, sA) := by
        simp [DatabaseHelper.findOrganizationBySlug, hS]
      simp only [DatabaseHelper.deleteOrganizationBySlug, hF,
        Prod.mk.injEq] at h
      obtain ⟨hr, hs⟩ := h
      subst hs
      exact ⟨hpA, _, htA, "",
        by simp, ⟨[Stmt.deleteMembersByOrg "", Stmt.deleteInvitationsByOrg "",
          Stmt.deleteOrgRolesByOrg "", Stmt.deleteOrgById ""], rfl⟩⟩
    | cons oid tlr =>
      have hF : DatabaseHelper.findOrganizationBySlug slug st =
          (.ok (some oid), sA) := by
        simp [DatabaseHelper.findOrganizationBySlug, hS]
      rcases hD : DatabaseHelper.deleteOrgDeps oid sA with ⟨rD, sB⟩
      obtain ⟨hpB, segD, htB, hne, hpre, hfull⟩ :=
        deleteOrgDeps_seg oid sA p hpA _ _ hD
      cases rD with
      | error e =>
        simp only [DatabaseHelper.deleteOrganizationBySlug, hF, hD,
          Prod.mk.injEq] at h
        obtain ⟨hr, hs⟩ := h
        subst hs
        obtain ⟨t, htpre⟩ := hpre
        refine ⟨hpB, Stmt.selectOrgBySlug slug :: segD,
          by rw [htB, htA]; simp, oid, by simp, ?_⟩
        refine ⟨t ++ [Stmt.deleteOrgById oid], ?_⟩
        simp only [orgDeleteSeq, List.cons_append, List.cons.injEq, true_and]
        rw [← List.append_assoc, htpre]
        rfl
      | ok u =>
        have hsegD := hfull u rfl
        subst hsegD
        rcases hQ : DatabaseHelper.query (.deleteOrgById oid) sB with ⟨rQ, sC⟩
        obtain ⟨hqC, TC, htC, _, hTC⟩ := query_state _ _ _ _ hQ
        have hTCe : TC = [Stmt.deleteOrgById oid] := hTC (by rw [hpB]; rfl)
        subst hTCe
        have hpC : sC.pool = some p := by rw [hqC, hpB]
        have hseg : sC.trace = st.trace ++ orgDeleteSeq slug oid := by
          rw [htC, htB, htA]
          simp [orgDeleteSeq]
        cases rQ with
        | error e =>
          simp only [DatabaseHelper.deleteOrganizationBySlug, hF, hD, hQ,
            Prod.mk.injEq] at h
          obtain ⟨hr, hs⟩ := h
          subst hs
          exact ⟨hpC, _, hseg, oid, by simp [orgDeleteSeq],
            List.prefix_refl _⟩
        | ok rows2 =>
          simp only [DatabaseHelper.deleteOrganizationBySlug, hF, hD, hQ,
            Prod.mk.injEq] at h
          obtain ⟨hr, hs⟩ := h
          subst hs
          exact ⟨hpC, _, hseg, oid, by simp [orgDeleteSeq],
            List.prefix_refl _⟩

/-- `deleteUserDeps` on a connected store issues a nonempty prefix of the
four dependent-row deletions, all of them when it succeeds. -/
theorem deleteUserDeps_seg (uid : String) (st : Store) (p : PoolConfig)
    (hp : st.pool = some p) (r : Except DBErr Unit) (st1 : Store)
    (h : DatabaseHelper.deleteUserDeps uid st = (r, st1)) :
    st1.pool = some p ∧
    ∃ seg, st1.trace = st.trace ++ seg ∧ seg ≠ [] ∧
      seg <+: [Stmt.deleteSessionsByUser uid, Stmt.deleteAccountsByUser uid,
        Stmt.deleteMembersByUser uid, Stmt.deleteInvitationsByInviter uid] ∧
      (∀ u, r = .ok u → seg = [Stmt.deleteSessionsByUser uid,
        Stmt.deleteAccountsByUser uid, Stmt.deleteMembersByUser uid,
        Stmt.deleteInvitationsByInviter uid]) := by
  unfold DatabaseHelper.deleteUserDeps at h
  rcases h1 : DatabaseHelper.query (.deleteSessionsByUser uid) st with ⟨r1, s1⟩
  simp only [h1] at h
  obtain ⟨hq1, T1, ht1, _, hT1⟩ := query_state _ _ _ _ h1
  have hT1e : T1 = [Stmt.deleteSessionsByUser uid] := hT1 (by rw [hp]; rfl)
  subst hT1e
  have hp1 : s1.pool = some p := by rw [hq1, hp]
  cases r1 with
  | error e =>
    simp only [Prod.mk.injEq] at h
    obtain ⟨hr, hs⟩ := h
    subst hs
    refine ⟨hp1, _, ht1, by simp,
      ⟨[Stmt.deleteAccountsByUser uid, Stmt.deleteMembersByUser uid,
        Stmt.deleteInvitationsByInviter uid], rfl⟩, ?_⟩
    intro u hu
    rw [← hr] at hu
    simp at hu
  | ok v1 =>
    rcases h2 : DatabaseHelper.query (.deleteAccountsByUser uid) s1
      with ⟨r2, s2⟩
    simp only [h2] at h
    obtain ⟨hq2, T2, ht2, _, hT2⟩ := query_state _ _ _ _ h2
    have hT2e : T2 = [Stmt.deleteAccountsByUser uid] := hT2 (by rw [hp1]; rfl)
    subst hT2e
    have hp2 : s2.pool = some p := by rw [hq2, hp1]
    have ht2f : s2.trace = st.trace ++
        [Stmt.deleteSessionsByUser uid, Stmt.deleteAccountsByUser uid] := by
      rw [ht2, ht1]
      simp
    cases r2 with
    | error e =>
      simp only [Prod.mk.injEq] at h
      obtain ⟨hr, hs⟩ := h
      subst hs
      refine ⟨hp2, _, ht2f, by simp,
        ⟨[Stmt.deleteMembersByUser uid, Stmt.deleteInvitationsByInviter uid],
          rfl⟩, ?_⟩
      intro u hu
      rw [← hr] at hu
      simp at hu
    | ok v2 =>
      rcases h3 : DatabaseHelper.query (.deleteMembersByUser uid) s2
        with ⟨r3, s3⟩
      simp only [h3] at h
      obtain ⟨hq3, T3, ht3, _, hT3⟩ := query_state _ _ _ _ h3
      have hT3e : T3 = [Stmt.deleteMembersByUser uid] := hT3
        (by rw [hp2]; rfl)
      subst hT3e
      have hp3 : s3.pool = some p := by rw [hq3, hp2]
      have ht3f : s3.trace = st.trace ++
          [Stmt.deleteSessionsByUser uid, Stmt.deleteAccountsByUser uid,
            Stmt.deleteMembersByUser uid] := by
        rw [ht3, ht2f]
        simp
      cases r3 with
      | error e =>
        simp only [Prod.mk.injEq] at h
        obtain ⟨hr, hs⟩ := h
        subst hs
        refine ⟨hp3, _, ht3f, by simp,
          ⟨[Stmt.deleteInvitationsByInviter uid], rfl⟩, ?_⟩
        intro u hu
        rw [← hr] at hu
        simp at hu
      | ok v3 =>
        rcases h4 : DatabaseHelper.query (.deleteInvitationsByInviter uid) s3
          with ⟨r4, s4⟩
        simp only [h4] at h
        obtain ⟨hq4, T4, ht4, _, hT4⟩ := query_state _ _ _ _ h4
        have hT4e : T4 = [Stmt.deleteInvitationsByInviter uid] := hT4
          (by rw [hp3]; rfl)
        subst hT4e
        have hp4 : s4.pool = some p := by rw [hq4, hp3]
        have ht4f : s4.trace = st.trace ++
            [Stmt.deleteSessionsByUser uid, Stmt.deleteAccountsByUser uid,
              Stmt.deleteMembersByUser uid,
              Stmt.deleteInvitationsByInviter uid] := by
          rw [ht4, ht3f]
          simp
        cases r4 with
        | error e =>
          simp only [Prod.mk.injEq] at h
          obtain ⟨hr, hs⟩ := h
          subst hs
          exact ⟨hp4, _, ht4f, by simp, List.prefix_refl _, fun u hu => rfl⟩
        | ok v4 =>
          simp only [Prod.mk.injEq] at h
          obtain ⟨hr, hs⟩ := h
          subst hs
          exact ⟨hp4, _, ht4f, by simp, List.prefix_refl _, fun u hu => rfl⟩

/-- `deleteUserByEmail` on a connected store emits exactly one
deletion-attempt segment: a nonempty prefix of the FK-safe sequence. -/
theorem deleteUserByEmail_seg (email : String) (st : Store) (p : PoolConfig)
    (hp : st.pool = some p) (res : Except DBErr Bool) (st1 : Store)
    (h : DatabaseHelper.deleteUserByEmail email st = (res, st1)) :
    st1.pool = some p ∧
      ∃ seg, st1.trace = st.trace ++ seg ∧ UserSeg email seg := by
  rcases hS : DatabaseHelper.query (.selectUserByEmail email) st with ⟨rS, sA⟩
  obtain ⟨hqA, TA, htA, _, hTA⟩ := query_state _ _ _ _ hS
  have hTAe : TA = [Stmt.selectUserByEmail email] := hTA (by rw [hp]; rfl)
  subst hTAe
  have hpA : sA.pool = some p := by rw [hqA, hp]
  cases rS with
  | error e =>
    have hF : DatabaseHelper.findUserByEmail email st = (.ok none, sA) := by
      simp [DatabaseHelper.findUserByEmail, hS]
    simp only [DatabaseHelper.deleteUserByEmail, hF, Prod.mk.injEq] at h
    obtain ⟨hr, hs⟩ := h
    subst hs
    exact ⟨hpA, _, htA, "",
      by simp, ⟨[Stmt.deleteSessionsByUser "", Stmt.deleteAccountsByUser "",
        Stmt.deleteMembersByUser "", Stmt.deleteInvitationsByInviter "",
        Stmt.deleteUserById ""], rfl⟩⟩
  | ok rows =>
    cases rows with
    | nil =>
      have hF : DatabaseHelper.findUserByEmail email st = (.ok none, sA) := by
        simp [DatabaseHelper.findUserByEmail, hS]
      simp only [DatabaseHelper.deleteUserByEmail, hF, Prod.mk.injEq] at h
      obtain ⟨hr, hs⟩ := h
      subst hs
      exact ⟨hpA, _, htA, "",
        by simp, ⟨[Stmt.deleteSessionsByUser "", Stmt.deleteAccountsByUser "",
          Stmt.deleteMembersByUser "", Stmt.deleteInvitationsByInviter "",
          Stmt.deleteUserById ""], rfl⟩⟩
    | cons uid tlr =>
      have hF : DatabaseHelper.findUserByEmail email st =
          (.ok (some uid), sA) := by
        simp [DatabaseHelper.findUserByEmail, hS]
      rcases hD : DatabaseHelper.deleteUserDeps uid sA with ⟨rD, sB⟩
      obtain ⟨hpB, segD, htB, hne, hpre, hfull⟩ :=
        deleteUserDeps_seg uid sA p hpA _ _ hD
      cases rD with
      | error e =>
        simp only [DatabaseHelper.deleteUserByEmail, hF, hD,
          Prod.mk.injEq] at h
        obtain ⟨hr, hs⟩ := h
        subst hs
        obtain ⟨t, htpre⟩ := hpre
        refine ⟨hpB, Stmt.selectUserByEmail email :: segD,
          by rw [htB, htA]; simp, uid, by simp, ?_⟩
        refine ⟨t ++ [Stmt.deleteUserById uid], ?_⟩
        simp only [userDeleteSeq, List.cons_append, List.cons.injEq, true_and]
        rw [← List.append_assoc, htpre]
        rfl
      | ok u =>
        have hsegD := hfull u rfl
        subst hsegD
        rcases hQ : DatabaseHelper.query (.deleteUserById uid) sB
          with ⟨rQ, sC⟩
        obtain ⟨hqC, TC, htC, _, hTC⟩ := query_state _ _ _ _ hQ
        have hTCe : TC = [Stmt.deleteUserById uid] := hTC (by rw [hpB]; rfl)
        subst hTCe
        have hpC : sC.pool = some p := by rw [hqC, hpB]
        have hseg : sC.trace = st.trace ++ userDeleteSeq email uid := by
          rw [htC, htB, htA]
          simp [userDeleteSeq]
        cases rQ with
        | error e =>
          simp only [DatabaseHelper.deleteUserByEmail, hF, hD, hQ,
            Prod.mk.injEq] at h
          obtain ⟨hr, hs⟩ := h
          subst hs
          exact ⟨hpC, _, hseg, uid, by simp [userDeleteSeq],
            List.prefix_refl _⟩
        | ok rows2 =>
          simp only [DatabaseHelper.deleteUserByEmail, hF, hD, hQ,
            Prod.mk.injEq] at h
          obtain ⟨hr, hs⟩ := h
          subst hs
          exact ⟨hpC, _, hseg, uid, by simp [userDeleteSeq],
            List.prefix_refl _⟩

/-- The organization loop of `cleanup` keeps the pool and appends one
deletion-attempt segment per registered slug, in registration order. -/
theorem orgsLoop_phase : ∀ (slugs : List String) (st : Store) (p : PoolConfig),
    st.pool = some p →
    (TestCleanup.orgsLoop slugs st).pool = some p ∧
    ∃ T, (TestCleanup.orgsLoop slugs st).trace = st.trace ++ T ∧
      OrgPhase slugs T := by
  intro slugs
  induction slugs with
  | nil =>
    intro st p hp
    exact ⟨hp, [], by simp [TestCleanup.orgsLoop], rfl⟩
  | cons slug rest ih =>
    intro st p hp
    rcases hd : DatabaseHelper.deleteOrganizationBySlug slug st with ⟨r0, s1⟩
    obtain ⟨hp1, seg, hseg, hOrgSeg⟩ :=
      deleteOrganizationBySlug_seg slug st p hp _ _ hd
    have hloop : TestCleanup.orgsLoop (slug :: rest) st =
        TestCleanup.orgsLoop rest s1 := by
      simp [TestCleanup.orgsLoop, hd]
    obtain ⟨hp2, T2, ht2, hphase⟩ := ih s1 p hp1
    refine ⟨by rw [hloop]; exact hp2, seg ++ T2, ?_,
      seg, T2, rfl, hOrgSeg, hphase⟩
    rw [hloop, ht2, hseg, List.append_assoc]

/-- The user loop of `cleanup` keeps the pool and appends one
deletion-attempt segment per registered email, in registration order. -/
theorem usersLoop_phase : ∀ (emails : List String) (st : Store)
    (p : PoolConfig), st.pool = some p →
    (TestCleanup.usersLoop emails st).pool = some p ∧
    ∃ T, (TestCleanup.usersLoop emails st).trace = st.trace ++ T ∧
      UserPhase emails T := by
  intro emails
  induction emails with
  | nil =>
    intro st p hp
    exact ⟨hp, [], by simp [TestCleanup.usersLoop], rfl⟩
  | cons email rest ih =>
    intro st p hp
    rcases hd : DatabaseHelper.deleteUserByEmail email st with ⟨r0, s1⟩
    obtain ⟨hp1, seg, hseg, hUserSeg⟩ :=
      deleteUserByEmail_seg email st p hp _ _ hd
    have hloop : TestCleanup.usersLoop (email :: rest) st =
        TestCleanup.usersLoop rest s1 := by
      simp [TestCleanup.usersLoop, hd]
    obtain ⟨hp2, T2, ht2, hphase⟩ := ih s1 p hp1
    refine ⟨by rw [hloop]; exact hp2, seg ++ T2, ?_,
      seg, T2, rfl, hUserSeg, hphase⟩
    rw [hloop, ht2, hseg, List.append_assoc]

/-- Claim C3 (counterexample): with the client already connected — a
reachable store — `cleanup()` performs no deletion at all: the `connect()`
call inside it throws the `Logger.debug` `TypeError`, the catch returns
early, no statement is issued (the trace is unchanged), and the registry is
left intact rather than cleared. -/
theorem cleanup_connected_counterexample :
    TestCleanup.cleanup { databaseUrl := true, ci := false }
        { usersToCleanup := ["jo@x.test"],
          organizationsToCleanup := ["acme-co"] }
        (Store.mk
          (some { max := 10, idleTimeoutMillis := 30000,
                  connectionTimeoutMillis := 10000 })
          sampleDB [] []) =
      (.ok { usersToCleanup := ["jo@x.test"],
             organizationsToCleanup := ["acme-co"] },
        Store.mk
          (some { max := 10, idleTimeoutMillis := 30000,
                  connectionTimeoutMillis := 10000 })
          sampleDB [] []) := rfl

/-- Claim C3 (amended): with `DATABASE_URL` set, the client not yet
connected and the store reachable (the `connect()` attempt inside
`cleanup()` succeeds), `cleanup()` first attempts the deletion of every
registered organization, in order, then of every registered user — so every
organization statement precedes every user statement in the issued trace —
and each individual deletion attempt is a nonempty prefix of its FK-safe
sequence (the lookup, then the dependent-row deletions, then the entity
row), whatever individual failures occur; every registered key is attempted
and the registry is cleared.  (When the client is already connected,
`connect()` throws the `Logger.debug` `TypeError` and `cleanup()` returns
early without attempting any deletion.) -/
theorem cleanup_fk_order (env : ProcEnv) (tc : TestCleanup) (st : Store)
    (hdb : env.databaseUrl = true) (hp : st.pool = none)
    (hok : st.failures.headD false = false) :
    ∃ st1 Torg Tuser,
      TestCleanup.cleanup env tc st =
        (.ok { usersToCleanup := [], organizationsToCleanup := [] }, st1) ∧
      st1.trace = st.trace ++ [Stmt.selectOne] ++ Torg ++ Tuser ∧
      OrgPhase tc.organizationsToCleanup Torg ∧
      UserPhase tc.usersToCleanup Tuser := by
  obtain ⟨pool, db, fl, tr⟩ := st
  simp only at hp hok
  subst hp
  have hc : DatabaseHelper.connect (Store.mk none db fl tr) =
      (.ok (), Store.mk
        (some { max := 10, idleTimeoutMillis := 30000,
                connectionTimeoutMillis := 10000 })
        db fl.tail (tr ++ [Stmt.selectOne])) := by
    cases fl with
    | nil => rfl
    | cons b fl2 =>
      simp only [List.headD] at hok
      subst hok
      rfl
  obtain ⟨hpO, Torg, htO, hOphase⟩ :=
    orgsLoop_phase tc.organizationsToCleanup
      (Store.mk
        (some { max := 10, idleTimeoutMillis := 30000,
                connectionTimeoutMillis := 10000 })
        db fl.tail (tr ++ [Stmt.selectOne]))
      { max := 10, idleTimeoutMillis := 30000,
        connectionTimeoutMillis := 10000 } rfl
  obtain ⟨hpU, Tuser, htU, hUphase⟩ :=
    usersLoop_phase tc.usersToCleanup
      (TestCleanup.orgsLoop tc.organizationsToCleanup
        (Store.mk
          (some { max := 10, idleTimeoutMillis := 30000,
                  connectionTimeoutMillis := 10000 })
          db fl.tail (tr ++ [Stmt.selectOne])))
      { max := 10, idleTimeoutMillis := 30000,
        connectionTimeoutMillis := 10000 } hpO
  refine ⟨TestCleanup.usersLoop tc.usersToCleanup
    (TestCleanup.orgsLoop tc.organizationsToCleanup
      (Store.mk
        (some { max := 10, idleTimeoutMillis := 30000,
                connectionTimeoutMillis := 10000 })
        db fl.tail (tr ++ [Stmt.selectOne]))), Torg, Tuser, ?_, ?_,
    hOphase, hUphase⟩
  · simp only [TestCleanup.cleanup, hdb, Bool.not_true, Bool.and_false,
      Bool.or_self, Bool.false_eq_true, if_false, hc]
  · rw [htU, htO]

/-- Claim C3 (witness): a concrete reachable, not-yet-connected store with
one registered organization and one registered user, and a failure injected
into the schedule after the successful connection. -/
theorem cleanup_fk_order_witness :
    ∃ st1 Torg Tuser,
      TestCleanup.cleanup { databaseUrl := true, ci := false }
          { usersToCleanup := ["jo@x.test"],
            organizationsToCleanup := ["acme-co"] }
          (Store.mk none sampleDB [false, true] []) =
        (.ok { usersToCleanup := [], organizationsToCleanup := [] }, st1) ∧
      st1.trace = (Store.mk none sampleDB [false, true] []).trace ++
        [Stmt.selectOne] ++ Torg ++ Tuser ∧
      OrgPhase ["acme-co"] Torg ∧
      UserPhase ["jo@x.test"] Tuser :=
  cleanup_fk_order { databaseUrl := true, ci := false }
    { usersToCleanup := ["jo@x.test"], organizationsToCleanup := ["acme-co"] }
    (Store.mk none sampleDB [false, true] []) rfl rfl rfl

/-- Claim C4: when a user with email `E` exists, the store is reachable and
stays reachable (no query failure), and emails identify users uniquely (the
store's unique-email constraint), two successive `deleteUserByEmail(E)`
calls return `true` then `false`. -/
theorem deleteUserByEmail_idempotent (st : Store) (p : PoolConfig)
    (E : String) (hp : st.pool = some p) (hf : st.failures = [])
    (hex : ∃ u ∈ st.db.users, u.email = E)
    (huniq : ∀ u1 ∈ st.db.users, ∀ u2 ∈ st.db.users,
      u1.email = E → u2.email = E → u1.id = u2.id) :
    (DatabaseHelper.deleteUserByEmail E st).fst = .ok true ∧
    (DatabaseHelper.deleteUserByEmail E
      (DatabaseHelper.deleteUserByEmail E st).snd).fst = .ok false := by
  obtain ⟨pool, db, fl, tr⟩ := st
  simp only at hp hf hex huniq
  subst hp
  subst hf
  obtain ⟨u0, hu0, hu0E⟩ := hex
  rcases hl : db.users.filter (fun u => u.email == E) with _ | ⟨v, tlv⟩
  · exfalso
    have hm : u0 ∈ db.users.filter (fun u => u.email == E) :=
      List.mem_filter.mpr ⟨hu0, by simp [hu0E]⟩
    rw [hl] at hm
    exact List.not_mem_nil _ hm
  · have hvmem : v ∈ db.users.filter (fun u => u.email == E) := by
      rw [hl]
      exact List.mem_cons_self _ _
    have hv1 : v ∈ db.users := (List.mem_filter.mp hvmem).1
    have hvE : v.email = E := by
      have hb := (List.mem_filter.mp hvmem).2
      simpa using hb
    rcases hl2 : db.users.filter (fun u => u.id == v.id) with _ | ⟨w, tlw⟩
    · exfalso
      have hm : v ∈ db.users.filter (fun u => u.id == v.id) :=
        List.mem_filter.mpr ⟨hv1, by simp⟩
      rw [hl2] at hm
      exact List.not_mem_nil _ hm
    · have hl2e : (db.users.filter (fun u => !(u.id == v.id))).filter
          (fun u => u.email == E) = [] := by
        rw [List.filter_eq_nil_iff]
        intro a ha hbeq
        have haE : a.email = E := by simpa using hbeq
        have hmem := List.mem_filter.mp ha
        have hane : a.id ≠ v.id := by simpa using hmem.2
        exact hane (huniq a hmem.1 v hv1 haE hvE)
      constructor
      · simp [DatabaseHelper.deleteUserByEmail,
          DatabaseHelper.findUserByEmail, DatabaseHelper.deleteUserDeps,
          DatabaseHelper.query, execStmt, hl, hl2]
      · simp [DatabaseHelper.deleteUserByEmail,
          DatabaseHelper.findUserByEmail, DatabaseHelper.deleteUserDeps,
          DatabaseHelper.query, execStmt, hl, hl2, hl2e]

/-- Claim C4 (witness): a concrete connected store holding one user with the
email and dependent rows. -/
theorem deleteUserByEmail_idempotent_witness :
    (DatabaseHelper.deleteUserByEmail "jo@x.test"
      (Store.mk
        (some { max := 10, idleTimeoutMillis := 30000,
                connectionTimeoutMillis := 10000 })
        sampleDB [] [])).fst = .ok true ∧
    (DatabaseHelper.deleteUserByEmail "jo@x.test"
      (DatabaseHelper.deleteUserByEmail "jo@x.test"
        (Store.mk
          (some { max := 10, idleTimeoutMillis := 30000,
                  connectionTimeoutMillis := 10000 })
          sampleDB [] [])).snd).fst = .ok false :=
  deleteUserByEmail_idempotent
    (Store.mk
      (some { max := 10, idleTimeoutMillis := 30000,
              connectionTimeoutMillis := 10000 })
      sampleDB [] [])
    { max := 10, idleTimeoutMillis := 30000,
      connectionTimeoutMillis := 10000 }
    "jo@x.test" rfl rfl
    ⟨{ id := "u1", email := "jo@x.test" }, by decide, rfl⟩ (by decide)
